import Mathlib

set_option maxHeartbeats 2000000
set_option maxRecDepth 8000

/-!
Verification development for the spreadly self-healing incremental execution
pipeline.  The definitions below are a shallow embedding of the relevant parts
of `src/frontend/src/utils/edge-case-tester.ts` (the `IncrementalExecutor`
orchestrator loop) and `src/frontend/src/taskpane/taskpane.ts` (the validator
`FinancialModelValidator` / `validateGeneratedCode`, the corrector
`autoCorrectArrayDimensions` with `applyEdgeCaseCorrections` and
`fixOfficeScriptsApiPattern`, the mock sandbox `testCodeInMockEnvironmentSimple`
and `MockExcelEnvironment.validateRangeOperation`, and the code-selection logic
of `executeExcelScriptCode`).

Source text is modelled as `List Char`.  Each JavaScript regular expression of
the source is embedded as a bespoke matcher function that reproduces the
engine's observable behaviour on the pattern (leftmost scan, advance past a
match, greedy/lazy quantifier resolution); each matcher carries a doc comment
quoting the source pattern.
-/

namespace Spreadly

abbrev Chars := List Char

/-! ## Generic scanning machinery

JavaScript's `regex.exec` loop with the `g` flag repeatedly finds the leftmost
match and resumes scanning right after it; `String.prototype.replace` with a
`g` flag does the same while substituting; `RegExp.prototype.test` and
`String.prototype.includes` just ask for existence.  The engines below
implement exactly those scan disciplines for an arbitrary matcher.  A matcher
takes the current suffix and returns a payload together with the length of the
match (always at least 1 for the patterns embedded here). -/

/-- Line-number bookkeeping: the source computes the 1-based line of a match
as `codeUpToMatch.split('\n').length`, i.e. newlines before the match plus 1. -/
def nextLn (c : Char) (ln : Nat) : Nat := if c = '\n' then ln + 1 else ln

/-- Global `exec` scan: try the matcher at every position, left to right,
skipping past each match; emits each payload with the line number at which the
match started. -/
def scanGo {α : Type} (m : Chars → Option (α × Nat)) : Nat → Nat → Chars → List (α × Nat)
  | _, _, [] => []
  | k+1, ln, c :: l => scanGo m k (nextLn c ln) l
  | 0, ln, c :: l =>
    match m (c :: l) with
    | some (a, n) => (a, ln) :: scanGo m (n - 1) (nextLn c ln) l
    | none => scanGo m 0 (nextLn c ln) l

/-- Scan a whole text, line counter starting at 1. -/
def scanAll {α : Type} (m : Chars → Option (α × Nat)) (l : Chars) : List (α × Nat) :=
  scanGo m 0 1 l

/-- Global replace: substitute every match (leftmost, advancing past each
match) by the replacement computed by the matcher. -/
def repGo (m : Chars → Option (Chars × Nat)) : Nat → Chars → Chars
  | _, [] => []
  | k+1, _ :: l => repGo m k l
  | 0, c :: l =>
    match m (c :: l) with
    | some (r, n) => r ++ repGo m (n - 1) l
    | none => c :: repGo m 0 l

def replaceAll (m : Chars → Option (Chars × Nat)) (l : Chars) : Chars :=
  repGo m 0 l

/-- Replace only the first (leftmost) match, like `String.replace` without a
`g` flag. -/
def repFirst (m : Chars → Option (Chars × Nat)) : Chars → Chars
  | [] => []
  | c :: l =>
    match m (c :: l) with
    | some (r, n) => r ++ List.drop (n - 1) l
    | none => c :: repFirst m l

/-- Existence of a match anywhere, like `RegExp.test`. -/
def hasMatch {α : Type} (m : Chars → Option (α × Nat)) : Chars → Bool
  | [] => false
  | c :: l => (m (c :: l)).isSome || hasMatch m l

/-- Substring test, like `String.prototype.includes`. -/
def containsSub (w : Chars) : Chars → Bool
  | [] => w.isEmpty
  | c :: l => w.isPrefixOf (c :: l) || containsSub w l

/-- All start indexes at which `w` occurs in the text (used to phrase
occurrence-control hypotheses; `w` is always nonempty where this is used). -/
def indexesSubFrom (w : Chars) : Nat → Chars → List Nat
  | _, [] => []
  | i, c :: l => (if w.isPrefixOf (c :: l) then [i] else []) ++ indexesSubFrom w (i + 1) l

def indexesSub (w l : Chars) : List Nat := indexesSubFrom w 0 l

/-! ## Character-class helpers mirroring the JavaScript classes -/

/-- JavaScript `\s` (the whitespace characters relevant to ASCII source). -/
def isJsSpace (c : Char) : Bool :=
  c = ' ' || c = '\t' || c = '\n' || c = '\r' || c = '\x0b' || c = '\x0c'

/-- JavaScript `\w` = `[A-Za-z0-9_]`. -/
def isWordChar (c : Char) : Bool := c.isAlpha || c.isDigit || c = '_'

/-- JavaScript `[a-zA-Z_$]` / `[a-zA-Z0-9_$]` identifier classes. -/
def isIdentStart (c : Char) : Bool := c.isAlpha || c = '_' || c = '$'
def isIdentChar (c : Char) : Bool := c.isAlpha || c.isDigit || c = '_' || c = '$'

def isUpperAZ (c : Char) : Bool := 'A' ≤ c && c ≤ 'Z'

/-- Quote characters of the `["'`]` classes in the edge-case patterns. -/
def isQuoteChar (c : Char) : Bool :=
  c = Char.ofNat 34 || c = Char.ofNat 39 || c = Char.ofNat 96

/-- Parse an exact literal, returning the rest of the input. -/
def parseLit : Chars → Chars → Option Chars
  | [], l => some l
  | _ :: _, [] => none
  | a :: w, b :: l => if a = b then parseLit w l else none

/-- Parse a single character satisfying a predicate. -/
def parseCh (p : Char → Bool) : Chars → Option (Char × Chars)
  | [] => none
  | c :: l => if p c then some (c, l) else none

/-- Greedy run of characters satisfying a predicate (`p*`). -/
def parseRun (p : Char → Bool) (l : Chars) : Chars × Chars :=
  (l.takeWhile p, l.dropWhile p)

/-- Greedy nonempty run (`p+`). -/
def parseRun1 (p : Char → Bool) (l : Chars) : Option (Chars × Chars) :=
  match l.takeWhile p with
  | [] => none
  | r => some (r, l.dropWhile p)

/-- Digits of a decimal numeral to a `Nat` (JavaScript `parseInt` on an
all-digit string). -/
def natOfDigits (l : Chars) : Nat :=
  l.foldl (fun acc c => acc * 10 + (c.toNat - 48)) 0

/-- Decimal numeral of a `Nat` (used when the source interpolates numbers back
into rewritten text). -/
def digitsOfNat (n : Nat) : Chars := (Nat.repr n).toList

def lowerStr (l : Chars) : Chars := l.map Char.toLower

/-! ## Generic lemmas about the engines -/

theorem parseLit_nil (l : Chars) : parseLit [] l = some l := rfl

theorem parseLit_mem {w l r : Chars} (h : parseLit w l = some r) : ∀ c ∈ w, c ∈ l := by
  induction w generalizing l with
  | nil => intro c hc; cases hc
  | cons a w ih =>
    cases l with
    | nil => simp [parseLit] at h
    | cons b l' =>
      simp only [parseLit] at h
      by_cases hab : a = b
      · subst hab
        simp at h
        intro c hc
        rcases List.mem_cons.mp hc with h1 | h1
        · exact h1 ▸ List.mem_cons_self _ _
        · exact List.mem_cons_of_mem _ (ih h c h1)
      · simp [hab] at h

theorem containsSub_subset {w l : Chars} (h : containsSub w l = true) : ∀ c ∈ w, c ∈ l := by
  induction l with
  | nil =>
    simp [containsSub, List.isEmpty_iff] at h
    subst h; intro c hc; cases hc
  | cons b l' ih =>
    simp only [containsSub, Bool.or_eq_true] at h
    rcases h with h | h
    · intro c hc
      have hp : w <+: (b :: l') := List.isPrefixOf_iff_prefix.mp h
      exact hp.subset hc
    · intro c hc
      exact List.mem_cons_of_mem _ (ih h c hc)

/-- A substring test fails as soon as one character of the needle is absent
from the haystack. -/
theorem containsSub_eq_false {w l : Chars} {c : Char} (hc : c ∈ w) (hl : c ∉ l) :
    containsSub w l = false := by
  cases h : containsSub w l with
  | false => rfl
  | true => exact absurd (containsSub_subset h c hc) hl

theorem indexesSubFrom_complete {w : Chars} (hw : w ≠ []) :
    ∀ (l : Chars) (i j : Nat), w.isPrefixOf (l.drop j) = true → (i + j) ∈ indexesSubFrom w i l := by
  intro l
  induction l with
  | nil =>
    intro i j h
    rcases w with _ | ⟨a, w'⟩
    · exact absurd rfl hw
    · simp [List.drop_nil, List.isPrefixOf] at h
  | cons c l' ih =>
    intro i j h
    cases j with
    | zero =>
      simp only [List.drop_zero] at h
      simp [indexesSubFrom, h]
    | succ j' =>
      simp only [List.drop_succ_cons] at h
      have hmem := ih (i + 1) j' h
      simp only [indexesSubFrom]
      refine List.mem_append_right _ ?_
      have he : i + (j' + 1) = (i + 1) + j' := by omega
      rw [he]
      exact hmem

theorem indexesSub_complete {w l : Chars} {j : Nat} (hw : w ≠ [])
    (h : w.isPrefixOf (l.drop j) = true) : j ∈ indexesSub w l := by
  have := indexesSubFrom_complete hw l 0 j h
  simpa [indexesSub] using this

theorem scanGo_nil {α : Type} (m : Chars → Option (α × Nat)) (k ln : Nat) :
    scanGo m k ln [] = [] := by cases k <;> rfl

theorem scanGo_succ {α : Type} (m : Chars → Option (α × Nat)) (k ln : Nat) (c : Char) (l : Chars) :
    scanGo m (k + 1) ln (c :: l) = scanGo m k (nextLn c ln) l := rfl

theorem scanGo_cons_none {α : Type} {m : Chars → Option (α × Nat)} {c : Char} {l : Chars}
    (ln : Nat) (h : m (c :: l) = none) :
    scanGo m 0 ln (c :: l) = scanGo m 0 (nextLn c ln) l := by
  simp [scanGo, h]

theorem scanGo_cons_some {α : Type} {m : Chars → Option (α × Nat)} {c : Char} {l : Chars}
    {a : α} {n : Nat} (ln : Nat) (h : m (c :: l) = some (a, n)) :
    scanGo m 0 ln (c :: l) = (a, ln) :: scanGo m (n - 1) (nextLn c ln) l := by
  simp [scanGo, h]

/-- Scanning past a run of characters at which the matcher can never fire
(decided by the head character alone) and which contains no newline. -/
theorem scanGo_append_of_headNone {α : Type} {m : Chars → Option (α × Nat)} (a : Chars)
    (b : Chars) (ln : Nat) (h : ∀ c ∈ a, ∀ l, m (c :: l) = none)
    (hnl : ∀ c ∈ a, c ≠ '\n') :
    scanGo m 0 ln (a ++ b) = scanGo m 0 ln b := by
  induction a generalizing ln with
  | nil => rfl
  | cons c a' ih =>
    have hc : m (c :: (a' ++ b)) = none := h c (List.mem_cons_self _ _) _
    rw [List.cons_append, scanGo_cons_none ln hc]
    have : nextLn c ln = ln := by
      simp [nextLn, hnl c (List.mem_cons_self _ _)]
    rw [this]
    exact ih ln (fun d hd l => h d (List.mem_cons_of_mem _ hd) l)
      (fun d hd => hnl d (List.mem_cons_of_mem _ hd))

/-- Consuming an explicit skip budget across a run without newlines. -/
theorem scanGo_skip_append {α : Type} (m : Chars → Option (α × Nat)) (a b : Chars)
    (k ln : Nat) (hk : a.length ≤ k) (hnl : ∀ c ∈ a, c ≠ '\n') :
    scanGo m k ln (a ++ b) = scanGo m (k - a.length) ln b := by
  induction a generalizing k ln with
  | nil => simp
  | cons c a' ih =>
    cases k with
    | zero => simp at hk
    | succ k' =>
      have hlen : a'.length ≤ k' := by simpa using hk
      rw [List.cons_append, scanGo_succ]
      have : nextLn c ln = ln := by
        simp [nextLn, hnl c (List.mem_cons_self _ _)]
      rw [this, ih k' ln hlen (fun d hd => hnl d (List.mem_cons_of_mem _ hd))]
      simp [List.length_cons, Nat.succ_sub_succ]

theorem repGo_nil (m : Chars → Option (Chars × Nat)) (k : Nat) : repGo m k [] = [] := by
  cases k <;> rfl

theorem repGo_succ (m : Chars → Option (Chars × Nat)) (k : Nat) (c : Char) (l : Chars) :
    repGo m (k + 1) (c :: l) = repGo m k l := rfl

theorem repGo_cons_none {m : Chars → Option (Chars × Nat)} {c : Char} {l : Chars}
    (h : m (c :: l) = none) : repGo m 0 (c :: l) = c :: repGo m 0 l := by
  simp [repGo, h]

theorem repGo_cons_some {m : Chars → Option (Chars × Nat)} {c : Char} {l : Chars}
    {r : Chars} {n : Nat} (h : m (c :: l) = some (r, n)) :
    repGo m 0 (c :: l) = r ++ repGo m (n - 1) l := by
  simp [repGo, h]

/-- A replace-all is the identity on text at which the matcher can never fire,
decided by the head character of each suffix. -/
theorem replaceAll_id_of_headNone {m : Chars → Option (Chars × Nat)} (l : Chars)
    (h : ∀ i, m (l.drop i) = none) : replaceAll m l = l := by
  unfold replaceAll
  induction l with
  | nil => rfl
  | cons c l' ih =>
    have h0 : m (c :: l') = none := by simpa using h 0
    rw [repGo_cons_none h0]
    have := ih (fun i => by simpa using h (i + 1))
    rw [this]

theorem repFirst_id {m : Chars → Option (Chars × Nat)} (l : Chars)
    (h : ∀ i, m (l.drop i) = none) : repFirst m l = l := by
  induction l with
  | nil => rfl
  | cons c l' ih =>
    have h0 : m (c :: l') = none := by simpa using h 0
    simp only [repFirst, h0]
    rw [ih (fun i => by simpa using h (i + 1))]

theorem hasMatch_eq_false {α : Type} {m : Chars → Option (α × Nat)} (l : Chars)
    (h : ∀ i, m (l.drop i) = none) : hasMatch m l = false := by
  induction l with
  | nil => rfl
  | cons c l' ih =>
    have h0 : m (c :: l') = none := by simpa using h 0
    simp only [hasMatch, h0, Option.isSome_none, Bool.false_or]
    exact ih (fun i => by simpa using h (i + 1))

/-- Existence of a match at some suffix makes `hasMatch` true. -/
theorem hasMatch_eq_true {α : Type} {m : Chars → Option (α × Nat)} {l : Chars} {x : α × Nat}
    (i : Nat) (hi : i < l.length) (h : m (l.drop i) = some x) : hasMatch m l = true := by
  induction l generalizing i with
  | nil => cases hi
  | cons c l' ih =>
    cases i with
    | zero =>
      simp only [List.drop_zero] at h
      simp [hasMatch, h]
    | succ i' =>
      simp only [List.drop_succ_cons] at h
      have hi' : i' < l'.length := by simpa using hi
      simp [hasMatch, ih i' hi' h]

/-! ## Orchestrator: `IncrementalExecutor.executeIncrementalLoop`

The loop in `src/frontend/src/utils/edge-case-tester.ts` is modelled as a
state-transition function driven by an oracle describing the environment's
responses (the `/api/incremental/next-chunk` generator, the outcome of the real
Excel execution of the current chunk, and the `/api/incremental/handle-error`
auto-fix endpoint).  All network calls are assumed to return (the `catch`
branch of the loop, which handles exceptions thrown by those auxiliary calls,
is not modelled); the `await this.delay(...)` backoff calls only pause and are
dropped.  `this.isExecuting` stays `true` (no `stop()` call).  -/

/-- A chunk delivered by the generator.  The source's `ChunkInfo` also carries
`type`, `complexity`, `description`, `estimated_operations` and `stage`; those
fields never influence the loop's control flow and are elided. -/
structure ChunkInfo where
  id : Chars
  code : Chars
deriving DecidableEq, Repr

/-- The response of the `next-chunk` endpoint: `completed` / no chunk / chunk. -/
inductive GenResp where
  | completedR
  | noChunkR
  | chunkR (c : ChunkInfo)
deriving DecidableEq, Repr

/-- The environment's behaviour during one iteration of the `while` loop:
what the generator answers, whether executing the delivered chunk succeeds,
the `error_message` of a failed execution, the `auto_fixed` flag of the
error-handling endpoint (`false` covers a `null` result), and the chunk
returned by `getUpdatedChunk` (`none` covers both a failed fetch and an id
mismatch, which the source maps to `null`). -/
structure IterOracle where
  gen : GenResp
  execSuccess : Bool
  errMsg : Chars
  handlerAutoFixed : Bool
  updatedChunk : Option ChunkInfo
deriving DecidableEq, Repr

/-- The mutable state of `executeIncrementalLoop`: the local counters
`consecutiveErrors` and `totalRetries` and the field `this.currentChunk`. -/
structure LoopState where
  consecutiveErrors : Nat
  totalRetries : Nat
  currentChunk : Option ChunkInfo
deriving DecidableEq, Repr

/-- `maxConsecutiveErrors = 3` in the source. -/
def maxConsecutiveErrors : Nat := 3

/-- `maxTotalRetries = 10; // Circuit breaker for infinite loops`. -/
def maxTotalRetries : Nat := 10

/-- The `persistentPatterns` list of `IncrementalExecutor.isPersistentError`. -/
def persistentPatterns : List Chars :=
  ["Excel API not available".toList,
   "context is undefined".toList,
   "Excel is not defined".toList,
   "Office.js not loaded".toList,
   "Permission denied".toList,
   "Network error".toList,
   "Rate limit exceeded".toList,
   "Service unavailable".toList]

/-- `IncrementalExecutor.isPersistentError`: a missing or empty message (both
falsy in JavaScript) is not persistent; otherwise the lower-cased message is
searched for each lower-cased pattern. -/
def isPersistentError : Option Chars → Bool
  | none => false
  | some msg =>
    if msg.isEmpty then false
    else persistentPatterns.any (fun p => containsSub (lowerStr p) (lowerStr msg))

/-- Result of one iteration: either the loop `return`s with a session result,
or continues with a new state. -/
inductive IterOut where
  | finished (ok : Bool)
  | next (s : LoopState)
deriving DecidableEq, Repr

/-- Observable trace of one iteration: control outcome, the
`last_execution_result` payload sent with the `next-chunk` request if one was
issued (`none` = no request; `some none` = request with `null`; `some (some b)`
= request reporting `success = b`), and whether a real execution happened. -/
structure IterTrace where
  out : IterOut
  request : Option (Option Bool)
  executed : Bool
deriving DecidableEq, Repr

/-- One iteration of the `while (this.isExecuting)` body of
`executeIncrementalLoop`, mirrored statement by statement:
circuit-breaker check, `lastResult` construction (which always reports
`success: true` for a present `currentChunk` — the source comment reads
"Assume previous chunk succeeded if we got here without errors"), the
`next-chunk` request, execution, and the success / persistent /
auto-fix-retry / consecutive-abort classification. -/
def loopIter (o : IterOracle) (s : LoopState) : IterTrace :=
  if maxTotalRetries ≤ s.totalRetries then
    { out := .finished false, request := none, executed := false }
  else
    let lastResult : Option Bool := s.currentChunk.map (fun _ => true)
    match o.gen with
    | .completedR => { out := .finished true, request := some lastResult, executed := false }
    | .noChunkR => { out := .finished false, request := some lastResult, executed := false }
    | .chunkR c =>
      if o.execSuccess then
        -- consecutiveErrors = 0; totalRetries = 0 ("Reset retry counter on success")
        { out := .next ⟨0, 0, some c⟩, request := some lastResult, executed := true }
      else
        let ce := s.consecutiveErrors + 1
        let tr := s.totalRetries + 1
        if isPersistentError (some o.errMsg) then
          -- "Detected persistent error pattern, moving to next chunk":
          -- consecutiveErrors = 0, then `continue`
          { out := .next ⟨0, tr, some c⟩, request := some lastResult, executed := true }
        else if o.handlerAutoFixed && decide (tr < maxTotalRetries) then
          match o.updatedChunk with
          | some u =>
            -- retry with fixed chunk: consecutiveErrors = Math.max(0, ce - 1)
            { out := .next ⟨ce - 1, tr, some u⟩, request := some lastResult, executed := true }
          | none =>
            if maxConsecutiveErrors ≤ ce then
              { out := .finished false, request := some lastResult, executed := true }
            else
              { out := .next ⟨ce, tr, some c⟩, request := some lastResult, executed := true }
        else
          if maxConsecutiveErrors ≤ ce then
            { out := .finished false, request := some lastResult, executed := true }
          else
            { out := .next ⟨ce, tr, some c⟩, request := some lastResult, executed := true }

/-- Accumulated observable behaviour of a run of the loop. -/
structure RunResult where
  result : Option Bool
  execCount : Nat
  requests : List (Option Bool)
deriving DecidableEq, Repr

/-- Run the loop for at most `fuel` iterations under environment `env`
(indexed by iteration number `i`).  `result = none` means the fuel ran out
with the loop still running. -/
def runLoop (env : Nat → IterOracle) : Nat → LoopState → Nat → RunResult
  | _, _, 0 => { result := none, execCount := 0, requests := [] }
  | i, s, fuel + 1 =>
    let t := loopIter (env i) s
    match t.out with
    | .finished ok =>
      { result := some ok,
        execCount := if t.executed then 1 else 0,
        requests := t.request.toList }
    | .next s' =>
      let r := runLoop env (i + 1) s' fuel
      { result := r.result,
        execCount := (if t.executed then 1 else 0) + r.execCount,
        requests := t.request.toList ++ r.requests }

/-- Initial state of a session: both counters zero, no current chunk. -/
def initialLoopState : LoopState := ⟨0, 0, none⟩

/-! ### Orchestrator lemmas -/

theorem loopIter_circuitBreaker {o : IterOracle} {s : LoopState}
    (h : maxTotalRetries ≤ s.totalRetries) :
    loopIter o s = { out := .finished false, request := none, executed := false } := by
  simp [loopIter, h]

/-- Every iteration that really executes a chunk and fails either continues
with `totalRetries` incremented by exactly one, or returns `false`. -/
theorem loopIter_failure_shape {o : IterOracle} {s : LoopState} {c : ChunkInfo}
    (hgen : o.gen = .chunkR c) (hex : o.execSuccess = false)
    (hlt : s.totalRetries < maxTotalRetries) :
    (∃ s', loopIter o s =
        { out := .next s', request := some (s.currentChunk.map fun _ => true), executed := true }
      ∧ s'.totalRetries = s.totalRetries + 1)
    ∨ loopIter o s =
        { out := .finished false, request := some (s.currentChunk.map fun _ => true),
          executed := true } := by
  have hnot : ¬ maxTotalRetries ≤ s.totalRetries := by omega
  unfold loopIter
  simp only [hnot, if_false, hgen, hex, Bool.false_eq_true]
  by_cases hper : isPersistentError (some o.errMsg) = true
  · simp only [hper, if_true]
    exact Or.inl ⟨_, rfl, rfl⟩
  · simp only [Bool.not_eq_true] at hper
    simp only [hper, Bool.false_eq_true, if_false]
    by_cases hfix : (o.handlerAutoFixed && decide (s.totalRetries + 1 < maxTotalRetries)) = true
    · simp only [hfix, if_true]
      cases o.updatedChunk with
      | some u => exact Or.inl ⟨_, rfl, rfl⟩
      | none =>
        by_cases hce : maxConsecutiveErrors ≤ s.consecutiveErrors + 1
        · right; simp [hce]
        · simp only [hce, if_false]; exact Or.inl ⟨_, rfl, rfl⟩
    · simp only [Bool.not_eq_true] at hfix
      simp only [hfix, Bool.false_eq_true, if_false]
      by_cases hce : maxConsecutiveErrors ≤ s.consecutiveErrors + 1
      · right; simp [hce]
      · simp only [hce, if_false]; exact Or.inl ⟨_, rfl, rfl⟩

theorem runLoop_succ_of_finished {env : Nat → IterOracle} {i : Nat} {s : LoopState} {ok : Bool}
    (fuel : Nat) (h : (loopIter (env i) s).out = .finished ok) :
    runLoop env i s (fuel + 1) =
      { result := some ok,
        execCount := if (loopIter (env i) s).executed then 1 else 0,
        requests := (loopIter (env i) s).request.toList } := by
  simp only [runLoop, h]

theorem runLoop_succ_of_next {env : Nat → IterOracle} {i : Nat} {s s' : LoopState}
    (fuel : Nat) (h : (loopIter (env i) s).out = .next s') :
    runLoop env i s (fuel + 1) =
      { result := (runLoop env (i + 1) s' fuel).result,
        execCount := (if (loopIter (env i) s).executed then 1 else 0) +
          (runLoop env (i + 1) s' fuel).execCount,
        requests := (loopIter (env i) s).request.toList ++ (runLoop env (i + 1) s' fuel).requests } := by
  simp only [runLoop, h]

/-- Under an environment in which every real execution fails and the generator
always supplies a chunk, a run of the loop returns `false` and executes at most
`maxTotalRetries - totalRetries` chunks, as soon as the fuel covers the
remaining retry budget. -/
theorem runLoop_allFail_aborts (env : Nat → IterOracle)
    (hfail : ∀ i, (env i).execSuccess = false)
    (hchunk : ∀ i, ∃ c, (env i).gen = .chunkR c) :
    ∀ fuel i s, maxTotalRetries ≤ s.totalRetries + fuel →
      (runLoop env i s (fuel + 1)).result = some false ∧
      (runLoop env i s (fuel + 1)).execCount ≤ maxTotalRetries - s.totalRetries := by
  intro fuel
  induction fuel with
  | zero =>
    intro i s h
    have habort : maxTotalRetries ≤ s.totalRetries := by omega
    have hli := @loopIter_circuitBreaker (env i) s habort
    have hout : (loopIter (env i) s).out = .finished false := by rw [hli]
    rw [runLoop_succ_of_finished 0 hout]
    refine ⟨rfl, ?_⟩
    simp [hli]
  | succ fuel ih =>
    intro i s h
    by_cases habort : maxTotalRetries ≤ s.totalRetries
    · have hli := @loopIter_circuitBreaker (env i) s habort
      have hout : (loopIter (env i) s).out = .finished false := by rw [hli]
      rw [runLoop_succ_of_finished (fuel + 1) hout]
      refine ⟨rfl, ?_⟩
      simp [hli]
    · obtain ⟨c, hgen⟩ := hchunk i
      have hlt : s.totalRetries < maxTotalRetries := by omega
      rcases loopIter_failure_shape hgen (hfail i) hlt with ⟨s', hli, hret⟩ | hli
      · have hout : (loopIter (env i) s).out = .next s' := by rw [hli]
        have hexec : (loopIter (env i) s).executed = true := by rw [hli]
        have hrec := ih (i + 1) s' (by omega)
        rw [runLoop_succ_of_next (fuel + 1) hout]
        constructor
        · exact hrec.1
        · show (if (loopIter (env i) s).executed = true then 1 else 0) +
            (runLoop env (i + 1) s' (fuel + 1)).execCount ≤ maxTotalRetries - s.totalRetries
          rw [hexec, if_pos rfl]
          have h2 := hrec.2
          rw [hret] at h2
          omega
      · have hout : (loopIter (env i) s).out = .finished false := by rw [hli]
        have hexec : (loopIter (env i) s).executed = true := by rw [hli]
        rw [runLoop_succ_of_finished (fuel + 1) hout]
        refine ⟨rfl, ?_⟩
        show (if (loopIter (env i) s).executed = true then 1 else 0) ≤
          maxTotalRetries - s.totalRetries
        rw [hexec, if_pos rfl]
        omega

/-- Claim C1: in a session in which every real chunk execution fails (and the
generator keeps supplying chunks), `executeIncrementalLoop` terminates
unsuccessfully — the `maxTotalRetries = 10` circuit breaker or the
consecutive-failure bound fires — within at most `maxTotalRetries` real
execution attempts, for every fuel bound of at least `maxTotalRetries`
iterations: it never runs forever. -/
theorem C1_circuit_breaker (env : Nat → IterOracle) (fuel : Nat)
    (hfail : ∀ i, (env i).execSuccess = false)
    (hchunk : ∀ i, ∃ c, (env i).gen = .chunkR c)
    (hfuel : maxTotalRetries ≤ fuel) :
    (runLoop env 0 initialLoopState (fuel + 1)).result = some false ∧
    (runLoop env 0 initialLoopState (fuel + 1)).execCount ≤ maxTotalRetries := by
  have hmain := runLoop_allFail_aborts env hfail hchunk fuel 0 initialLoopState
    (by simp [initialLoopState]; omega)
  simpa [initialLoopState] using hmain

/-- Fixed sample chunk used by the concrete orchestrator scenarios. -/
def chunkA : ChunkInfo := ⟨"chunk-1".toList, "code".toList⟩

/-- Environment in which every execution fails with a non-persistent error. -/
def envAllFail : Nat → IterOracle :=
  fun _ => ⟨.chunkR chunkA, false, "boom".toList, false, none⟩

theorem C1_circuit_breaker_witness :
    (runLoop envAllFail 0 initialLoopState 11).result = some false ∧
    (runLoop envAllFail 0 initialLoopState 11).execCount ≤ maxTotalRetries :=
  C1_circuit_breaker envAllFail 10 (fun _ => rfl) (fun _ => ⟨chunkA, rfl⟩) (by decide)

/-- Oracle for a successful execution of a delivered chunk. -/
def oracleSuccess : IterOracle := ⟨.chunkR chunkA, true, [], false, none⟩

/-- A mid-session state with five accumulated total retries. -/
def stateFiveRetries : LoopState := ⟨1, 5, some chunkA⟩

/-- Claim C2 counterexample: from a state with `totalRetries = 5`, one
successful execution drives `totalRetries` back to `0` (the source comment
reads "Reset retry counter on success"), so `totalRetries` does not only ever
increase within a session — it resets on every success. -/
theorem C2_counterexample :
    loopIter oracleSuccess stateFiveRetries =
      { out := .next ⟨0, 0, some chunkA⟩, request := some (some true), executed := true }
    ∧ stateFiveRetries.totalRetries = 5 :=
  ⟨rfl, rfl⟩

/-- Claim C2 (amended): `consecutiveFailures` and `totalRetries` both reset to
0 on any successful real execution; within failure handling `totalRetries`
is never reset — every failing iteration that continues increments it by
exactly one. -/
theorem C2_amended (o : IterOracle) (s : LoopState) (c : ChunkInfo)
    (hlt : s.totalRetries < maxTotalRetries)
    (hgen : o.gen = .chunkR c) :
    (o.execSuccess = true → (loopIter o s).out = .next ⟨0, 0, some c⟩) ∧
    (o.execSuccess = false → ∀ s', (loopIter o s).out = .next s' →
      s'.totalRetries = s.totalRetries + 1) := by
  have hnot : ¬ maxTotalRetries ≤ s.totalRetries := by omega
  constructor
  · intro hex
    simp [loopIter, hnot, hgen, hex]
  · intro hex s' hout
    rcases loopIter_failure_shape hgen hex hlt with ⟨s'', hli, hret⟩ | hli
    · rw [hli] at hout
      simp only [IterOut.next.injEq] at hout
      rw [hout] at hret
      exact hret
    · rw [hli] at hout
      simp at hout

theorem C2_amended_witness :
    (loopIter oracleSuccess stateFiveRetries).out = .next ⟨0, 0, some chunkA⟩ :=
  (C2_amended oracleSuccess stateFiveRetries chunkA (by decide) rfl).1 rfl

/-- Oracle for a failed execution whose message matches the persistent
signature `'Rate limit exceeded'`. -/
def oraclePersistentFail : IterOracle :=
  ⟨.chunkR chunkA, false, "Rate limit exceeded while writing range".toList, false, none⟩

/-- A mid-session state with two consecutive failures already recorded. -/
def stateTwoConsecutive : LoopState := ⟨2, 2, none⟩

/-- Claim C4 counterexample: on a failure matching the persistent signature
list, `consecutiveFailures` is not left unchanged — from `2` it is reset to
`0` (the source increments it and then assigns `consecutiveErrors = 0` before
`continue`). -/
theorem C4_counterexample :
    loopIter oraclePersistentFail stateTwoConsecutive =
      { out := .next ⟨0, 3, some chunkA⟩, request := some none, executed := true }
    ∧ stateTwoConsecutive.consecutiveErrors = 2 := by
  constructor
  · rfl
  · rfl

/-- Claim C4 (amended): a failure whose message matches a persistent signature
skips the error-handling/auto-fix retry flow entirely — the iteration's
outcome does not depend on the auto-fix oracle at all — and proceeds to
request the next chunk, with `consecutiveFailures` reset to `0` (not left
unchanged) and `totalRetries` incremented by one. -/
theorem C4_amended (o : IterOracle) (s : LoopState) (c : ChunkInfo)
    (hlt : s.totalRetries < maxTotalRetries)
    (hgen : o.gen = .chunkR c) (hex : o.execSuccess = false)
    (hper : isPersistentError (some o.errMsg) = true) :
    loopIter o s =
      { out := .next ⟨0, s.totalRetries + 1, some c⟩,
        request := some (s.currentChunk.map fun _ => true), executed := true }
    ∧ (∀ af uc, loopIter ⟨o.gen, o.execSuccess, o.errMsg, af, uc⟩ s = loopIter o s) := by
  have hnot : ¬ maxTotalRetries ≤ s.totalRetries := by omega
  constructor
  · simp [loopIter, hnot, hgen, hex, hper]
  · intro af uc
    simp [loopIter, hnot, hgen, hex, hper]

theorem C4_amended_witness :
    loopIter oraclePersistentFail stateTwoConsecutive =
      { out := .next ⟨0, 3, some chunkA⟩, request := some none, executed := true } :=
  (C4_amended oraclePersistentFail stateTwoConsecutive chunkA (by decide) rfl rfl
    (by decide)).1

/-- Every branch of an iteration either issues no `next-chunk` request or
issues one whose `last_execution_result` is `null` (no prior chunk) or reports
`success: true`, regardless of the actual prior outcome. -/
theorem loopIter_request_shape (o : IterOracle) (s : LoopState) :
    (loopIter o s).request = none ∨
    (loopIter o s).request = some (s.currentChunk.map fun _ => true) := by
  unfold loopIter
  by_cases h1 : maxTotalRetries ≤ s.totalRetries
  · simp [h1]
  · simp only [h1, if_false]
    cases o.gen with
    | completedR => simp
    | noChunkR => simp
    | chunkR c =>
      by_cases hex : o.execSuccess = true
      · simp [hex]
      · simp only [Bool.not_eq_true] at hex
        simp only [hex, Bool.false_eq_true, if_false]
        by_cases hper : isPersistentError (some o.errMsg) = true
        · simp [hper]
        · simp only [Bool.not_eq_true] at hper
          simp only [hper, Bool.false_eq_true, if_false]
          by_cases hfix : (o.handlerAutoFixed && decide (s.totalRetries + 1 < maxTotalRetries)) = true
          · simp only [hfix, if_true]
            cases o.updatedChunk with
            | some u => simp
            | none =>
              by_cases hce : maxConsecutiveErrors ≤ s.consecutiveErrors + 1 <;> simp [hce]
          · simp only [Bool.not_eq_true] at hfix
            simp only [hfix, Bool.false_eq_true, if_false]
            by_cases hce : maxConsecutiveErrors ≤ s.consecutiveErrors + 1 <;> simp [hce]

/-- Claim C9 (amended): every `next-chunk` request the loop ever issues
carries `last_execution_result` equal to `null` or to a record with
`success: true` — a failed execution is never reported through the next-chunk
request (failures travel only through the separate `handle-error` endpoint). -/
theorem C9_amended (env : Nat → IterOracle) (i : Nat) (s : LoopState) (fuel : Nat) :
    ((runLoop env i s fuel).requests.all fun b => b == none || b == some true) = true := by
  induction fuel generalizing i s with
  | zero => rfl
  | succ fuel ih =>
    have hreq := loopIter_request_shape (env i) s
    simp only [runLoop]
    cases hout : (loopIter (env i) s).out with
    | finished ok =>
      simp only []
      rcases hreq with hreq | hreq <;> rw [hreq]
      · rfl
      · cases s.currentChunk <;> rfl
    | next s' =>
      simp only [List.all_append]
      rcases hreq with hreq | hreq <;> rw [hreq]
      · simpa using ih (i + 1) s'
      · cases s.currentChunk <;> simpa using ih (i + 1) s'

/-- Environment in which every execution fails with the persistent message
`'Rate limit exceeded'`, so the loop keeps advancing to the next chunk. -/
def envPersistentFail : Nat → IterOracle := fun _ => oraclePersistentFail

/-- Claim C9 counterexample: after the failed execution of iteration 0, the
request issued at iteration 1 reports the prior chunk as `success: true`
(the source builds `lastResult` with `success: true` unconditionally,
commented "Assume previous chunk succeeded if we got here without errors"),
not as the failure that actually happened. -/
theorem C9_counterexample :
    (runLoop envPersistentFail 0 initialLoopState 2).requests = [none, some true]
    ∧ (envPersistentFail 0).execSuccess = false :=
  ⟨rfl, rfl⟩

/-! ## Validator: `FinancialModelValidator` / `validateGeneratedCode`

The validator pushes message strings into four arrays (`errors`, `warnings`,
`fixableIssues`, `suggestions`).  Each push is modelled by a constructor of an
inductive finding type carrying the data interpolated into the message; the
doc comment of each constructor quotes the message template. -/

/-- Errors pushed by `validateExcelAPIUsage`. -/
inductive VError where
  /-- "❌ (remediation message): Found (api)" for each denylisted API substring. -/
  | unsupportedApi (api : Chars)
  /-- "❌ Missing Excel.run() wrapper - required for proper execution". -/
  | missingExcelRun
deriving DecidableEq, Repr

/-- Fixable issues pushed by the validator. -/
inductive VIssue where
  /-- "🔧 Function (name)() is declared but never called - add function call". -/
  | uncalledFunction (name : Chars)
  /-- "🔧 Line (n): Convert 1D array to 2D array in .values assignment". -/
  | values1D (line : Nat)
  /-- "🔧 Line (n): Convert 1D array to 2D array in .formulas assignment". -/
  | formulas1D (line : Nat)
  /-- "🔧 Line (n): Convert string to 2D array in .values assignment". -/
  | valuesString (line : Nat)
  /-- "🔧 Line (n): Convert string to 2D array in .formulas assignment". -/
  | formulasString (line : Nat)
  /-- "🔧 Range (range) ((rows)x(cols)) uses 1D array - should be 2D". -/
  | range1D (range : Chars) (rows cols : Int)
deriving DecidableEq, Repr

/-- Warnings pushed by the validator. -/
inductive VWarning where
  /-- "⚠️ Missing context.sync() - add after operations for better reliability". -/
  | missingSync
  /-- "⚠️ No financial model terminology detected - ensure this is a financial model". -/
  | noFinancialTerms
  /-- "⚠️ No calculations detected - financial models should include formulas". -/
  | noCalculations
  /-- "⚠️ Range (range) expects (rows) rows but array may be single row". -/
  | rangeSingleRow (range : Chars) (rows : Int)
  /-- "⚠️ Many single-cell operations ((n)) - consider batching into ranges". -/
  | manySingleCell (n : Nat)
  /-- "⚠️ Excessive context.sync() calls ((sync)/(total)) - batch operations". -/
  | excessiveSync (syncCount totalOps : Nat)
  /-- "⚠️ getUsedRange() with many operations may be slow on large sheets". -/
  | usedRangeSlow
  /-- "⚠️ Missing professional formatting - add colors and font styling". -/
  | missingFormatting
  /-- "⚠️ No clear headers detected - financial models should have section headers". -/
  | noHeaders
deriving DecidableEq, Repr

/-- Suggestions pushed by the validator. -/
inductive VSuggestion where
  /-- "💡 Consider using Excel financial functions: ...". -/
  | useFinancialFunctions
  /-- "💡 Combine single cells into range operations: getRange(\"A1:A(n)\")". -/
  | batchCells (n : Nat)
  /-- "💡 Good use of range operations for better performance". -/
  | goodRangeUse
  /-- "💡 Add header colors: .format.fill.color = \"#4472C4\"". -/
  | headerColors
  /-- "💡 Consider number formatting: .format.numberFormat = \"$#,##0.00\"". -/
  | numberFormatHint
  /-- "💡 Add comments to explain financial model sections". -/
  | addComments
deriving DecidableEq, Repr

/-- The shape of `validateGeneratedCode`'s result (`isValid` is derived as
`errors.isEmpty`). -/
structure VReport where
  errors : List VError
  warnings : List VWarning
  fixableIssues : List VIssue
  suggestions : List VSuggestion
deriving DecidableEq, Repr

def VReport.isValid (r : VReport) : Bool := r.errors.isEmpty

/-! ### Validator matchers (one per source regex) -/

/-- Matcher for `/async\s+function\s+(\w+)\s*\(/g`: returns the captured
function name and the match length. -/
def matchAsyncFunctionDecl (l : Chars) : Option (Chars × Nat) :=
  (parseLit "async".toList l).bind fun r1 =>
  (parseRun1 isJsSpace r1).bind fun p2 =>
  (parseLit "function".toList p2.2).bind fun r3 =>
  (parseRun1 isJsSpace r3).bind fun p4 =>
  (parseRun1 isWordChar p4.2).bind fun p5 =>
  (parseCh (· = '(') (parseRun isJsSpace p5.2).2).bind fun p6 =>
  some (p5.1, l.length - p6.2.length)

/-- Matcher for the validator's interpolated call pattern
`new RegExp(funcName + "\\s*\\(")` (no word boundary). -/
def matchCallPlain (name : Chars) (l : Chars) : Option (Unit × Nat) :=
  (parseLit name l).bind fun r1 =>
  (parseCh (· = '(') (parseRun isJsSpace r1).2).bind fun p2 =>
  some ((), l.length - p2.2.length)

/-- Matcher for `/\.values\s*=\s*\[(?!\[)/g`.  The negative lookahead consumes
nothing: the match length stops at the `[`. -/
def matchValuesOneLevel (l : Chars) : Option (Unit × Nat) :=
  (parseLit ".values".toList l).bind fun r1 =>
  (parseCh (· = '=') (parseRun isJsSpace r1).2).bind fun p2 =>
  (parseCh (· = '[') (parseRun isJsSpace p2.2).2).bind fun p3 =>
  if p3.2.head? = some '[' then none
  else some ((), l.length - p3.2.length)

/-- Matcher for `/\.formulas\s*=\s*\[(?!\[)/g`. -/
def matchFormulasOneLevel (l : Chars) : Option (Unit × Nat) :=
  (parseLit ".formulas".toList l).bind fun r1 =>
  (parseCh (· = '=') (parseRun isJsSpace r1).2).bind fun p2 =>
  (parseCh (· = '[') (parseRun isJsSpace p2.2).2).bind fun p3 =>
  if p3.2.head? = some '[' then none
  else some ((), l.length - p3.2.length)

/-- Matcher for `/\.values\s*=\s*"[^"]*"/g`. -/
def matchValuesStringLit (l : Chars) : Option (Unit × Nat) :=
  (parseLit ".values".toList l).bind fun r1 =>
  (parseCh (· = '=') (parseRun isJsSpace r1).2).bind fun p2 =>
  (parseCh (· = '"') (parseRun isJsSpace p2.2).2).bind fun p3 =>
  (parseCh (· = '"') (parseRun (· ≠ '"') p3.2).2).bind fun p4 =>
  some ((), l.length - p4.2.length)

/-- Matcher for `/\.formulas\s*=\s*"[^"]*"/g`. -/
def matchFormulasStringLit (l : Chars) : Option (Unit × Nat) :=
  (parseLit ".formulas".toList l).bind fun r1 =>
  (parseCh (· = '=') (parseRun isJsSpace r1).2).bind fun p2 =>
  (parseCh (· = '"') (parseRun isJsSpace p2.2).2).bind fun p3 =>
  (parseCh (· = '"') (parseRun (· ≠ '"') p3.2).2).bind fun p4 =>
  some ((), l.length - p4.2.length)

/-- Matcher for `/getRange\("([^"]+)"\)\.values\s*=\s*(\[.*?\])/g`, capturing
the range address and the bracketed array text.  `.` does not match a newline,
so the lazy `.*?\]` reaches to the first `]` with no newline in between. -/
def matchRangeValues (l : Chars) : Option ((Chars × Chars) × Nat) :=
  (parseLit "getRange(\"".toList l).bind fun r1 =>
  (parseRun1 (· ≠ '"') r1).bind fun p2 =>
  (parseLit "\")".toList p2.2).bind fun r3 =>
  (parseLit ".values".toList r3).bind fun r4 =>
  (parseCh (· = '=') (parseRun isJsSpace r4).2).bind fun p5 =>
  (parseCh (· = '[') (parseRun isJsSpace p5.2).2).bind fun p6 =>
  let mid := p6.2.takeWhile (fun c => c ≠ ']' && c ≠ '\n')
  match p6.2.dropWhile (fun c => c ≠ ']' && c ≠ '\n') with
  | ']' :: r7 => some ((p2.1, '[' :: (mid ++ [']'])), l.length - r7.length)
  | _ => none

/-- Matcher for `/getRange\("[A-Z]+\d+"\)/g` (single-cell operation count). -/
def matchSingleCellRange (l : Chars) : Option (Unit × Nat) :=
  (parseLit "getRange(\"".toList l).bind fun r1 =>
  (parseRun1 isUpperAZ r1).bind fun p2 =>
  (parseRun1 Char.isDigit p2.2).bind fun p3 =>
  (parseLit "\")".toList p3.2).bind fun r4 =>
  some ((), l.length - r4.length)

/-- Matcher for `/getRange\("[A-Z]+\d+:[A-Z]+\d+"\)/g` (range operation
count). -/
def matchRangePairOp (l : Chars) : Option (Unit × Nat) :=
  (parseLit "getRange(\"".toList l).bind fun r1 =>
  (parseRun1 isUpperAZ r1).bind fun p2 =>
  (parseRun1 Char.isDigit p2.2).bind fun p3 =>
  (parseCh (· = ':') p3.2).bind fun p4 =>
  (parseRun1 isUpperAZ p4.2).bind fun p5 =>
  (parseRun1 Char.isDigit p5.2).bind fun p6 =>
  (parseLit "\")".toList p6.2).bind fun r7 =>
  some ((), l.length - r7.length)

/-- Matcher for the literal `/context\.sync\(\)/g`. -/
def matchSyncLit (l : Chars) : Option (Unit × Nat) :=
  (parseLit "context.sync()".toList l).bind fun r1 =>
  some ((), l.length - r1.length)

/-! ### Validator assembly -/

/-- The `unsupportedAPIs` denylist of `validateExcelAPIUsage` (the remediation
message attached to each entry is elided; the entry identifies it). -/
def unsupportedAPIs : List Chars :=
  ["getCell(".toList, "borders.setItem".toList, "setItem(".toList,
   "border.style".toList, "outline.".toList, "Table.".toList]

def apiErrors (code : Chars) : List VError :=
  unsupportedAPIs.filterMap fun api =>
    if containsSub api code then some (.unsupportedApi api) else none

def wrapperErrors (code : Chars) : List VError :=
  if !containsSub "Excel.run".toList code && !containsSub "context.workbook".toList code then
    [.missingExcelRun]
  else []

/-- Declared-but-uncalled detection of `validateExcelAPIUsage`: declarations
found by `/async\s+function\s+(\w+)\s*\(/g` (duplicates kept, as in the
source), filtered by the call test `new RegExp(funcName + "\\s*\\(").test` —
note the test pattern has no word boundary, so the declaration text itself
satisfies it. -/
def uncalledFixables (code : Chars) : List VIssue :=
  ((scanAll matchAsyncFunctionDecl code).map Prod.fst).filterMap fun nm =>
    if hasMatch (matchCallPlain nm) code then none else some (.uncalledFunction nm)

def syncWarnings (code : Chars) : List VWarning :=
  if (scanAll matchSyncLit code).length = 0 && containsSub "getRange(".toList code then
    [.missingSync]
  else []

/-- `validateFinancialStructure` (warnings and suggestions only). -/
def financialTerms : List Chars :=
  ["dcf".toList, "valuation".toList, "model".toList, "financial".toList,
   "npv".toList, "irr".toList, "assumptions".toList, "projections".toList]

def financialFunctions : List Chars :=
  ["NPV(".toList, "IRR(".toList, "PMT(".toList, "FV(".toList, "PV(".toList,
   "RATE(".toList, "NPER(".toList]

def finStructWarnings (code : Chars) : List VWarning :=
  (if !(financialTerms.any fun t => containsSub t (lowerStr code)) then
    [VWarning.noFinancialTerms] else [])
  ++ (if !(containsSub "=".toList code &&
        (containsSub "*".toList code || containsSub "+".toList code ||
         containsSub "-".toList code || containsSub "/".toList code)) then
    [VWarning.noCalculations] else [])

def finStructSuggestions (code : Chars) : List VSuggestion :=
  if !(financialFunctions.any fun f => containsSub f code) && containsSub "=".toList code then
    [.useFinancialFunctions]
  else []

/-- `validateArrayDimensions`: one fixable issue per match of each of the four
patterns, in source order, each carrying the 1-based line number of the match
start. -/
def arrayDimIssues (code : Chars) : List VIssue :=
  ((scanAll matchValuesOneLevel code).map fun p => VIssue.values1D p.2)
  ++ ((scanAll matchFormulasOneLevel code).map fun p => VIssue.formulas1D p.2)
  ++ ((scanAll matchValuesStringLit code).map fun p => VIssue.valuesString p.2)
  ++ ((scanAll matchFormulasStringLit code).map fun p => VIssue.formulasString p.2)

/-- First maximal run satisfying `p` anywhere in the text, like
`str.match(/[A-Z]+/)?.[0]`. -/
def firstRunOf (p : Char → Bool) : Chars → Option Chars
  | [] => none
  | c :: l => if p c then some (c :: l.takeWhile p) else firstRunOf p l

/-- Row number extraction `parseInt(part.match(/\d+/)?.[0] || '1')`. -/
def rowOfPart (part : Chars) : Nat :=
  match firstRunOf Char.isDigit part with
  | some ds => natOfDigits ds
  | none => 1

/-- The per-match analysis of `validateRangeOperations`: expected column count
from the first letters of the two column runs (`charCodeAt(0)` difference),
expected row count from the numeric parts, array depth as the number of `[`
in the captured array text.  JavaScript truthiness: a zero row number makes
the `if (startCol && endCol && startRow && endRow)` guard fail. -/
def rangeOpFinding (range arrayStr : Chars) : Option (VIssue ⊕ VWarning) :=
  if containsSub ":".toList range then
    match List.splitOn ':' range with
    | [start, stop] =>
      match firstRunOf isUpperAZ start, firstRunOf isUpperAZ stop with
      | some sc, some ec =>
        let startRow := rowOfPart start
        let endRow := rowOfPart stop
        if startRow ≠ 0 && endRow ≠ 0 then
          let expectedCols : Int :=
            (ec.headD ' ').toNat - ((sc.headD ' ').toNat : Int) + 1
          let expectedRows : Int := (endRow : Int) - (startRow : Int) + 1
          let arrayDepth := (arrayStr.filter (· = '[')).length
          if arrayDepth = 1 then
            some (.inl (.range1D range expectedRows expectedCols))
          else if 1 < expectedRows && !containsSub "],[".toList arrayStr then
            some (.inr (.rangeSingleRow range expectedRows))
          else none
        else none
      | _, _ => none
    | _ => none
  else none

def rangeOpIssues (code : Chars) : List VIssue :=
  (scanAll matchRangeValues code).filterMap fun p =>
    match rangeOpFinding p.1.1 p.1.2 with
    | some (.inl i) => some i
    | _ => none

def rangeOpWarnings (code : Chars) : List VWarning :=
  (scanAll matchRangeValues code).filterMap fun p =>
    match rangeOpFinding p.1.1 p.1.2 with
    | some (.inr w) => some w
    | _ => none

/-- `validatePerformancePatterns`.  The float comparison
`syncCount > totalOps / 3` is equivalent to `3 * syncCount > totalOps` over
the integers involved. -/
def perfWarnings (code : Chars) : List VWarning :=
  let singleCellOps := (scanAll matchSingleCellRange code).length
  let rangeOps := (scanAll matchRangePairOp code).length
  let syncCount := (scanAll matchSyncLit code).length
  let totalOps := singleCellOps + rangeOps
  (if 20 < singleCellOps then [VWarning.manySingleCell singleCellOps] else [])
  ++ (if totalOps < 3 * syncCount then [VWarning.excessiveSync syncCount totalOps] else [])
  ++ (if containsSub "getUsedRange()".toList code && 10 < totalOps then
      [VWarning.usedRangeSlow] else [])

def perfSuggestions (code : Chars) : List VSuggestion :=
  let singleCellOps := (scanAll matchSingleCellRange code).length
  let rangeOps := (scanAll matchRangePairOp code).length
  (if 20 < singleCellOps then [VSuggestion.batchCells singleCellOps] else [])
  ++ (if singleCellOps * 2 < rangeOps then [VSuggestion.goodRangeUse] else [])

/-- `validateProfessionalStandards`. -/
def profWarnings (code : Chars) : List VWarning :=
  let hasColors := containsSub ".format.fill.color".toList code
  let hasFontStyling := containsSub ".format.font.bold".toList code ||
    containsSub ".format.font.size".toList code
  let hasHeaders := containsSub "header".toList (lowerStr code) ||
    containsSub "title".toList (lowerStr code)
  (if !hasColors && !hasFontStyling then [VWarning.missingFormatting] else [])
  ++ (if !hasHeaders then [VWarning.noHeaders] else [])

def profSuggestions (code : Chars) : List VSuggestion :=
  let hasColors := containsSub ".format.fill.color".toList code
  let hasFontStyling := containsSub ".format.font.bold".toList code ||
    containsSub ".format.font.size".toList code
  let hasNumberFormat := containsSub ".format.numberFormat".toList code
  let hasComments := containsSub "//".toList code
  (if !hasColors && !hasFontStyling then [VSuggestion.headerColors] else [])
  ++ (if !hasNumberFormat && containsSub "=".toList code then
      [VSuggestion.numberFormatHint] else [])
  ++ (if !hasComments && 500 < code.length then [VSuggestion.addComments] else [])

/-- `validateGeneratedCode` = `new FinancialModelValidator(code).validate()`:
the six check methods run in order and only append to their respective result
arrays, so each field is the in-order concatenation of the per-check
contributions. -/
def validateGeneratedCode (code : Chars) : VReport :=
  { errors := apiErrors code ++ wrapperErrors code,
    warnings := syncWarnings code ++ finStructWarnings code ++ rangeOpWarnings code
      ++ perfWarnings code ++ profWarnings code,
    fixableIssues := uncalledFixables code ++ arrayDimIssues code ++ rangeOpIssues code,
    suggestions := finStructSuggestions code ++ perfSuggestions code ++ profSuggestions code }

/-! ## Corrector: `autoCorrectArrayDimensions`

The corrector runs, in order: a per-line pass (Patterns 1–4), a logging-only
"additional pass" (no mutation; omitted), declared-function collection and
orphaned-call insertion, and `applyEdgeCaseCorrections` (whose result is kept
only when its correction counter is positive). -/

/-- JavaScript `String.prototype.trim`. -/
def trimJs (l : Chars) : Chars :=
  ((l.dropWhile isJsSpace).reverse.dropWhile isJsSpace).reverse

/-- JavaScript `split('\n')`: `""` splits to `[""]`, a trailing newline
yields a trailing empty line. -/
def splitNl : Chars → List Chars
  | [] => [[]]
  | c :: l =>
    if c = '\n' then [] :: splitNl l
    else
      match splitNl l with
      | s :: ss => (c :: s) :: ss
      | [] => [[c]]

/-- JavaScript `join('\n')`. -/
def joinNl : List Chars → Chars
  | [] => []
  | [l] => l
  | l :: ls => l ++ '\n' :: joinNl ls

/-- Viability of one start position for the regexes
`/(.*\.values\s*=\s*)\[([^\[\]]*(?:[^[\]]*)*)\](.*)/` (Pattern 1) and its
`.formulas` twin (Pattern 2): the property literal, `\s*=\s*`, `[`, a
bracket-free content group, `]`, and the rest as suffix.  Returns the
`\s*=\s*` text, the content group and the suffix. -/
def p1SiteAt (prop : Chars) (l : Chars) : Option (Chars × Chars × Chars) :=
  (parseLit prop l).bind fun r1 =>
  let ws1 := r1.takeWhile isJsSpace
  (parseCh (· = '=') (r1.dropWhile isJsSpace)).bind fun p2 =>
  let ws2 := p2.2.takeWhile isJsSpace
  (parseCh (· = '[') (p2.2.dropWhile isJsSpace)).bind fun p3 =>
  let content := p3.2.takeWhile (fun c => c ≠ '[' && c ≠ ']')
  (parseCh (· = ']') (p3.2.dropWhile (fun c => c ≠ '[' && c ≠ ']'))).bind fun p4 =>
  some (ws1 ++ '=' :: ws2, content, p4.2)

/-- Viability of one start position for the regexes
`/(.*\.values\s*=\s*)"([^"]*)"/` (Pattern 3) and its `.formulas` twin
(Pattern 4). -/
def p3SiteAt (prop : Chars) (l : Chars) : Option (Chars × Chars × Chars) :=
  (parseLit prop l).bind fun r1 =>
  let ws1 := r1.takeWhile isJsSpace
  (parseCh (· = '=') (r1.dropWhile isJsSpace)).bind fun p2 =>
  let ws2 := p2.2.takeWhile isJsSpace
  (parseCh (· = '"') (p2.2.dropWhile isJsSpace)).bind fun p3 =>
  let content := p3.2.takeWhile (· ≠ '"')
  (parseCh (· = '"') (p3.2.dropWhile (· ≠ '"'))).bind fun p4 =>
  some (ws1 ++ '=' :: ws2, content, p4.2)

/-- The greedy leading `(.*)` of Patterns 1–4 makes the engine bind the
property occurrence at the *last* viable start position. -/
def lastSiteGo (site : Chars → Option (Chars × Chars × Chars)) :
    Nat → Chars → Option (Nat × (Chars × Chars × Chars))
  | _, [] => none
  | i, c :: l =>
    match lastSiteGo site (i + 1) l with
    | some res => some res
    | none =>
      match site (c :: l) with
      | some parts => some (i, parts)
      | none => none

/-- Patterns 1/2: rewrite `prop = [content]` to `prop = [[content]]` at the
last viable site, guarded by `!content.trim().startsWith('[')` (the guard is
vacuous since the content group cannot contain `[`, but is kept from the
source).  `none` when the regex does not match or the guard fails. -/
def wrapRewrite (prop : Chars) (line : Chars) : Option Chars :=
  match lastSiteGo (p1SiteAt prop) 0 line with
  | some (i, (eqPart, content, sfx)) =>
    if (trimJs content).head? = some '[' then none
    else some (line.take i ++ prop ++ eqPart ++ "[[".toList ++ content ++ "]]".toList ++ sfx)
  | none => none

/-- Patterns 3/4: `line.replace(prefix ++ "content", prefix ++ [["content"]])`
— the search string is the matched prefix of the line, so its first
occurrence is at index 0 and the rewrite splices at the match. -/
def stringRewrite (prop : Chars) (line : Chars) : Option Chars :=
  match lastSiteGo (p3SiteAt prop) 0 line with
  | some (i, (eqPart, content, rest)) =>
    some (line.take i ++ prop ++ eqPart ++ "[[\"".toList ++ content ++ "\"]]".toList ++ rest)
  | none => none

/-- The per-line map of `autoCorrectArrayDimensions` (Patterns 1–4).  Each
pattern matches against the *original* `line` and assigns `correctedLine`,
so a later firing pattern overwrites an earlier one, exactly as in the
source. -/
def correctLine (line : Chars) : Chars :=
  let c1 :=
    if containsSub ".values".toList line && containsSub "=".toList line
        && containsSub "[".toList line then
      match wrapRewrite ".values".toList line with
      | some r => r
      | none => line
    else line
  let c2 :=
    if containsSub ".formulas".toList line && containsSub "=".toList line
        && containsSub "[".toList line then
      match wrapRewrite ".formulas".toList line with
      | some r => r
      | none => c1
    else c1
  let c3 :=
    if containsSub ".values".toList line && containsSub "=".toList line
        && containsSub "\"".toList line then
      match stringRewrite ".values".toList line with
      | some r => if containsSub "[".toList line then c2 else r
      | none => c2
    else c2
  let c4 :=
    if containsSub ".formulas".toList line && containsSub "=".toList line
        && containsSub "\"".toList line then
      match stringRewrite ".formulas".toList line with
      | some r => if containsSub "[".toList line then c3 else r
      | none => c3
    else c3
  c4

/-! ### Function-declaration collection and orphaned-call insertion -/

/-- Matcher for `/function\s+(\w+)\s*\(/g`. -/
def matchFunctionDecl (l : Chars) : Option (Chars × Nat) :=
  (parseLit "function".toList l).bind fun r1 =>
  (parseRun1 isJsSpace r1).bind fun p2 =>
  (parseRun1 isWordChar p2.2).bind fun p3 =>
  (parseCh (· = '(') (parseRun isJsSpace p3.2).2).bind fun p4 =>
  some (p3.1, l.length - p4.2.length)

/-- Matcher for `/const\s+(\w+)\s*=\s*async\s+\(/g` (and the `let`/`var`
variants below). -/
def matchKwAsyncDecl (kw : Chars) (l : Chars) : Option (Chars × Nat) :=
  (parseLit kw l).bind fun r1 =>
  (parseRun1 isJsSpace r1).bind fun p2 =>
  (parseRun1 isWordChar p2.2).bind fun p3 =>
  (parseCh (· = '=') (parseRun isJsSpace p3.2).2).bind fun p4 =>
  (parseLit "async".toList (parseRun isJsSpace p4.2).2).bind fun r5 =>
  (parseRun1 isJsSpace r5).bind fun p6 =>
  (parseCh (· = '(') p6.2).bind fun p7 =>
  some (p3.1, l.length - p7.2.length)

def matchConstAsyncDecl (l : Chars) : Option (Chars × Nat) := matchKwAsyncDecl "const".toList l
def matchLetAsyncDecl (l : Chars) : Option (Chars × Nat) := matchKwAsyncDecl "let".toList l
def matchVarAsyncDecl (l : Chars) : Option (Chars × Nat) := matchKwAsyncDecl "var".toList l

/-- Matcher for `/async\s+function\s+(main)\s*\(/g` (Office Scripts entry
point). -/
def matchAsyncMainDecl (l : Chars) : Option (Chars × Nat) :=
  (parseLit "async".toList l).bind fun r1 =>
  (parseRun1 isJsSpace r1).bind fun p2 =>
  (parseLit "function".toList p2.2).bind fun r3 =>
  (parseRun1 isJsSpace r3).bind fun p4 =>
  (parseLit "main".toList p4.2).bind fun r5 =>
  (parseCh (· = '(') (parseRun isJsSpace r5).2).bind fun p6 =>
  some ("main".toList, l.length - p6.2.length)

/-- The `functionPatterns` list of the corrector, in source order. -/
def declPatternMatchers : List (Chars → Option (Chars × Nat)) :=
  [matchAsyncFunctionDecl, matchFunctionDecl, matchConstAsyncDecl,
   matchLetAsyncDecl, matchVarAsyncDecl, matchAsyncMainDecl]

/-- All declared function names, first-seen order, no duplicates (the source
pushes a name only `if (!declaredFunctions.includes(functionName))`). -/
def declaredFunctionsOf (code : Chars) : List Chars :=
  declPatternMatchers.foldl
    (fun acc m =>
      (scanAll m code).foldl
        (fun acc2 p => if acc2.contains p.1 then acc2 else acc2 ++ [p.1]) acc)
    []

/-- Word-boundary-aware existence scan for `new RegExp("\\b" + name + "\\s*\\(")`:
a match position qualifies when the preceding character (if any) is not a word
character. -/
def hasCallBoundaryGo (name : Chars) : Option Char → Chars → Bool
  | _, [] => false
  | prev, c :: l =>
    ((match prev with | none => true | some p => !isWordChar p)
      && (matchCallPlain name (c :: l)).isSome)
    || hasCallBoundaryGo name (some c) l

def hasCallBoundary (name code : Chars) : Bool := hasCallBoundaryGo name none code

/-- Matcher for `new RegExp("await\\s+" + name + "\\s*\\(")`. -/
def matchAwaitCall (name : Chars) (l : Chars) : Option (Unit × Nat) :=
  (parseLit "await".toList l).bind fun r1 =>
  (parseRun1 isJsSpace r1).bind fun p2 =>
  (parseLit name p2.2).bind fun r3 =>
  (parseCh (· = '(') (parseRun isJsSpace r3).2).bind fun p4 =>
  some ((), l.length - p4.2.length)

/-- Matcher for `new RegExp("\\." + name + "\\s*\\(")`. -/
def matchDotCall (name : Chars) (l : Chars) : Option (Unit × Nat) :=
  (parseLit ('.' :: name) l).bind fun r1 =>
  (parseCh (· = '(') (parseRun isJsSpace r1).2).bind fun p2 =>
  some ((), l.length - p2.2.length)

/-- Matcher for `new RegExp(name + "\\.call\\s*\\(")`. -/
def matchCallMethod (name : Chars) (l : Chars) : Option (Unit × Nat) :=
  (parseLit (name ++ ".call".toList) l).bind fun r1 =>
  (parseCh (· = '(') (parseRun isJsSpace r1).2).bind fun p2 =>
  some ((), l.length - p2.2.length)

/-- Matcher for `new RegExp(name + "\\.apply\\s*\\(")`. -/
def matchApplyMethod (name : Chars) (l : Chars) : Option (Unit × Nat) :=
  (parseLit (name ++ ".apply".toList) l).bind fun r1 =>
  (parseCh (· = '(') (parseRun isJsSpace r1).2).bind fun p2 =>
  some ((), l.length - p2.2.length)

def functionIsCalled (code name : Chars) : Bool :=
  hasCallBoundary name code
  || hasMatch (matchAwaitCall name) code
  || hasMatch (matchDotCall name) code
  || hasMatch (matchCallMethod name) code
  || hasMatch (matchApplyMethod name) code

/-- The call-insertion step for one declared function: creation-style names
(`create`/`build`/`generate`/`merger`, case-insensitive) get a plain call;
otherwise a declaration found as `async function name` gets an awaited call;
otherwise a plain call. -/
def addCallIfMissing (code name : Chars) : Chars :=
  if functionIsCalled code name then code
  else if containsSub "create".toList (lowerStr name)
      || containsSub "build".toList (lowerStr name)
      || containsSub "generate".toList (lowerStr name)
      || containsSub "merger".toList (lowerStr name) then
    code ++ ("\n\n// Auto-generated function call for creation function\n".toList
      ++ name ++ "();".toList)
  else if containsSub ("async function ".toList ++ name) code then
    code ++ ("\n\n// Auto-generated async function call\nawait ".toList
      ++ name ++ "();".toList)
  else
    code ++ ("\n\n// Auto-generated function call\n".toList ++ name ++ "();".toList)

/-! ### `applyEdgeCaseCorrections` -/

/-- Counting replace engine: like `repGo`, but each matcher result carries the
replacement, whether the source's replacer incremented `correctionsApplied`,
and the match length; the previous original character is threaded for
word-boundary matchers. -/
def repCntGo (m : Option Char → Chars → Option (Chars × Bool × Nat)) :
    Option Char → Nat → Chars → Chars × Nat
  | _, _, [] => ([], 0)
  | _, k+1, c :: l => repCntGo m (some c) k l
  | prev, 0, c :: l =>
    match m prev (c :: l) with
    | some (r, b, n) =>
      let res := repCntGo m (some c) (n - 1) l
      (r ++ res.1, res.2 + (if b then 1 else 0))
    | none =>
      let res := repCntGo m (some c) 0 l
      (c :: res.1, res.2)

def replaceCntAll (m : Chars → Option (Chars × Bool × Nat)) (l : Chars) : Chars × Nat :=
  repCntGo (fun _ s => m s) none 0 l

def replaceCntAllB (m : Option Char → Chars → Option (Chars × Bool × Nat)) (l : Chars) :
    Chars × Nat :=
  repCntGo m none 0 l

/-- The special-character class `[!@#$%^&*()]` of the invalid-sheet pattern. -/
def isSheetSpecial (c : Char) : Bool :=
  c = '!' || c = '@' || c = '#' || c = '$' || c = '%' || c = '^' || c = '&'
  || c = '*' || c = '(' || c = ')'

/-- The group alternation
`([^"'`]*\s+[^"'`]*|Sheet\d{2,}|[^"'`]*[!@#$%^&*()]+[^"'`]*)` applied to the
whole quoted content (the closing quote class pins the group to the full
content): whitespace somewhere, or exactly `Sheet` + at least two digits, or a
special character somewhere. -/
def sheetNameBad (content : Chars) : Bool :=
  content.any isJsSpace
  || (match parseLit "Sheet".toList content with
      | some rest => 2 ≤ rest.length && rest.all Char.isDigit
      | none => false)
  || content.any isSheetSpecial

/-- Rule 1: `/\.worksheets\.getItem\(["'`](BAD)["'`]\)/g` →
`.worksheets.getItem("Sheet1")`. -/
def matchInvalidSheet (l : Chars) : Option (Chars × Bool × Nat) :=
  (parseLit ".worksheets.getItem(".toList l).bind fun r1 =>
  (parseCh isQuoteChar r1).bind fun p2 =>
  let content := p2.2.takeWhile (fun c => !isQuoteChar c)
  (parseCh isQuoteChar (p2.2.dropWhile (fun c => !isQuoteChar c))).bind fun p3 =>
  (parseCh (· = ')') p3.2).bind fun p4 =>
  if sheetNameBad content then
    some (".worksheets.getItem(\"Sheet1\")".toList, true, l.length - p4.2.length)
  else none

/-- Rule 2: `/\.getRange\(["'`]([A-Z]+\d+:[A-Z]+\d{4,})["'`]\)/g` →
`.getRange("A1:Z100")`. -/
def matchLargeRange (l : Chars) : Option (Chars × Bool × Nat) :=
  (parseLit ".getRange(".toList l).bind fun r1 =>
  (parseCh isQuoteChar r1).bind fun p2 =>
  (parseRun1 isUpperAZ p2.2).bind fun p3 =>
  (parseRun1 Char.isDigit p3.2).bind fun p4 =>
  (parseCh (· = ':') p4.2).bind fun p5 =>
  (parseRun1 isUpperAZ p5.2).bind fun p6 =>
  (parseRun1 Char.isDigit p6.2).bind fun p7 =>
  if 4 ≤ p7.1.length then
    (parseCh isQuoteChar p7.2).bind fun p8 =>
    (parseCh (· = ')') p8.2).bind fun p9 =>
    some (".getRange(\"A1:Z100\")".toList, true, l.length - p9.2.length)
  else none

/-- Rule 3: `/\.formulas\s*=\s*\[\[["'`]=([A-Z]+\d+)\+([A-Z]+\d+)["'`]\]\]/g`;
the replacer rewrites only when the two references are identical, otherwise it
returns the match unchanged (and does not count). -/
def matchCircularRef (l : Chars) : Option (Chars × Bool × Nat) :=
  (parseLit ".formulas".toList l).bind fun r1 =>
  (parseCh (· = '=') (parseRun isJsSpace r1).2).bind fun p2 =>
  (parseLit "[[".toList (parseRun isJsSpace p2.2).2).bind fun r3 =>
  (parseCh isQuoteChar r3).bind fun p4 =>
  (parseCh (· = '=') p4.2).bind fun p5 =>
  (parseRun1 isUpperAZ p5.2).bind fun p6 =>
  (parseRun1 Char.isDigit p6.2).bind fun p7 =>
  (parseCh (· = '+') p7.2).bind fun p8 =>
  (parseRun1 isUpperAZ p8.2).bind fun p9 =>
  (parseRun1 Char.isDigit p9.2).bind fun p10 =>
  (parseCh isQuoteChar p10.2).bind fun p11 =>
  (parseLit "]]".toList p11.2).bind fun r12 =>
  let n := l.length - r12.length
  let ref1 := p6.1 ++ p7.1
  let ref2 := p9.1 ++ p10.1
  if ref1 == ref2 then
    some (".formulas = [[\"=".toList ++ ref1 ++ "+1\"]]".toList, true, n)
  else some (l.take n, false, n)

/-- The lazy `.*?(true|false|null|undefined)` search: at each position the
alternatives are tried before the dot (which cannot cross a newline) expands. -/
def lazyFindKw : Chars → Option Chars
  | [] => none
  | c :: l =>
    match parseLit "true".toList (c :: l) with
    | some r => some r
    | none =>
      match parseLit "false".toList (c :: l) with
      | some r => some r
      | none =>
        match parseLit "null".toList (c :: l) with
        | some r => some r
        | none =>
          match parseLit "undefined".toList (c :: l) with
          | some r => some r
          | none => if c = '\n' then none else lazyFindKw l

/-- The lazy `.*?\]`: first `]` with no newline crossed. -/
def lazyFindRb : Chars → Option Chars
  | [] => none
  | c :: l => if c = ']' then some l else if c = '\n' then none else lazyFindRb l

/-- `.replace(/(true|false)/g, '"$1"')` on the matched text (plain substring
alternation, no word boundaries). -/
def matchTrueFalseLit (l : Chars) : Option (Chars × Nat) :=
  match parseLit "true".toList l with
  | some _ => some ("\"true\"".toList, 4)
  | none =>
    match parseLit "false".toList l with
    | some _ => some ("\"false\"".toList, 5)
    | none => none

/-- `.replace(/(null|undefined)/g, '""')` on the matched text. -/
def matchNullUndefLit (l : Chars) : Option (Chars × Nat) :=
  match parseLit "null".toList l with
  | some _ => some ("\"\"".toList, 4)
  | none =>
    match parseLit "undefined".toList l with
    | some _ => some ("\"\"".toList, 9)
    | none => none

def quoteMixedPayload (t : Chars) : Chars :=
  replaceAll matchNullUndefLit (replaceAll matchTrueFalseLit t)

/-- Rule 4: `/\.values\s*=\s*\[.*?(true|false|null|undefined).*?\]/g`, with the
match text rewritten by the two inner replaces. -/
def matchMixedType (l : Chars) : Option (Chars × Bool × Nat) :=
  (parseLit ".values".toList l).bind fun r1 =>
  (parseCh (· = '=') (parseRun isJsSpace r1).2).bind fun p2 =>
  (parseCh (· = '[') (parseRun isJsSpace p2.2).2).bind fun p3 =>
  (lazyFindKw p3.2).bind fun r4 =>
  (lazyFindRb r4).bind fun r5 =>
  let n := l.length - r5.length
  some (quoteMixedPayload (l.take n), true, n)

/-- Rule 5, first replace:
`/(await Excel\.run\(async \(context\) => \{)/g` → `$1\n    try {`. -/
def matchExcelRunOpen (l : Chars) : Option (Chars × Nat) :=
  (parseLit "await Excel.run(async (context) => \x7b".toList l).bind fun r =>
  some ("await Excel.run(async (context) => \x7b\n    try \x7b".toList, l.length - r.length)

/-- Rule 5, second replace: `/(await context\.sync\(\);\s*)\}\);/g` →
`$1    } catch (error) { console.error(...); throw error; }\n});`. -/
def matchSyncCloseBrace (l : Chars) : Option (Chars × Nat) :=
  (parseLit "await context.sync();".toList l).bind fun r1 =>
  let ws := r1.takeWhile isJsSpace
  (parseLit "\x7d);".toList (r1.dropWhile isJsSpace)).bind fun r2 =>
  some ("await context.sync();".toList ++ ws
    ++ "    \x7d catch (error) \x7b\n      console.error(\"Excel operation failed:\", error);\n      throw error;\n    \x7d\n\x7d);".toList,
    l.length - r2.length)

/-- Rule 5: guarded by `code.includes('Excel.run') && !code.includes('try') &&
!code.includes('catch')` — note the guard reads the *parameter* `code` of
`applyEdgeCaseCorrections`, not the partially corrected text. -/
def edgeRule5 (cur origCode : Chars) : Chars × Nat :=
  if containsSub "Excel.run".toList origCode && !containsSub "try".toList origCode
      && !containsSub "catch".toList origCode then
    (replaceAll matchSyncCloseBrace (replaceAll matchExcelRunOpen cur), 1)
  else (cur, 0)

/-- One line of Rule 6's `/^(\s*)([a-zA-Z_$][a-zA-Z0-9_$]*)\(\);$/gm`:
a full line consisting of whitespace, an identifier and `();`. -/
def parseAwaitableCallLine (line : Chars) : Option (Chars × Chars) :=
  let ws := line.takeWhile isJsSpace
  match line.dropWhile isJsSpace with
  | c :: r1 =>
    if isIdentStart c then
      let nm := c :: r1.takeWhile isIdentChar
      match parseLit "();".toList (r1.dropWhile isIdentChar) with
      | some [] => some (ws, nm)
      | _ => none
    else none
  | [] => none

/-- Rule 6 for one line: the replacer adds `await` only when the *parameter*
`code` declares the name as `async function name` or `name = async`. -/
def edgeRule6Line (origCode line : Chars) : Chars × Nat :=
  match parseAwaitableCallLine line with
  | some (ws, nm) =>
    if containsSub ("async function ".toList ++ nm) origCode
        || containsSub (nm ++ " = async".toList) origCode then
      (ws ++ "await ".toList ++ nm ++ "();".toList, 1)
    else (line, 0)
  | none => (line, 0)

/-- Rule 6: the multiline regex is processed per `\n`-separated line; this is
equivalent because the pattern cannot span a line's interior and the
replacement preserves the captured leading whitespace. -/
def edgeRule6 (cur origCode : Chars) : Chars × Nat :=
  let results := (splitNl cur).map (edgeRule6Line origCode)
  (joinNl (results.map Prod.fst), (results.map Prod.snd).foldl (· + ·) 0)

/-- Rule 7: `/\.getRange\(["'`]([A-Z]+)(\d+):([A-Z]+)(\d+)["'`]\)/g`; the
replacer rewrites to `.getRange("C1R1:C2(R1+5)")` only when
`parseInt(row2) <= parseInt(row1)`, otherwise it returns the match unchanged
(and does not count). -/
def matchInvalidRange (l : Chars) : Option (Chars × Bool × Nat) :=
  (parseLit ".getRange(".toList l).bind fun r1 =>
  (parseCh isQuoteChar r1).bind fun p2 =>
  (parseRun1 isUpperAZ p2.2).bind fun p3 =>
  (parseRun1 Char.isDigit p3.2).bind fun p4 =>
  (parseCh (· = ':') p4.2).bind fun p5 =>
  (parseRun1 isUpperAZ p5.2).bind fun p6 =>
  (parseRun1 Char.isDigit p6.2).bind fun p7 =>
  (parseCh isQuoteChar p7.2).bind fun p8 =>
  (parseCh (· = ')') p8.2).bind fun p9 =>
  let n := l.length - p9.2.length
  let row1 := natOfDigits p4.1
  let row2 := natOfDigits p7.1
  if row2 ≤ row1 then
    some (".getRange(\"".toList ++ p3.1 ++ p4.1 ++ ':' :: p6.1
      ++ digitsOfNat (row1 + 5) ++ "\")".toList, true, n)
  else some (l.take n, false, n)

/-! ### `fixOfficeScriptsApiPattern` -/

/-- The `isOfficeScripts` detection disjunction. -/
def officeScriptsDetected (code : Chars) : Bool :=
  containsSub "ExcelScript.Workbook".toList code
  || containsSub "workbook.getWorksheet(".toList code
  || containsSub "async function main(workbook".toList code
  || containsSub "ExcelScript.".toList code
  || containsSub ".getWorksheet(".toList code
  || containsSub ".getTables()".toList code
  || containsSub ".getCharts()".toList code

/-- Step 1:
`/async\s+function\s+main\s*\(\s*workbook\s*:\s*ExcelScript\.Workbook\s*\)\s*\{/g`. -/
def matchMainSignature (l : Chars) : Option (Chars × Bool × Nat) :=
  (parseLit "async".toList l).bind fun r1 =>
  (parseRun1 isJsSpace r1).bind fun p2 =>
  (parseLit "function".toList p2.2).bind fun r3 =>
  (parseRun1 isJsSpace r3).bind fun p4 =>
  (parseLit "main".toList p4.2).bind fun r5 =>
  (parseCh (· = '(') (parseRun isJsSpace r5).2).bind fun p6 =>
  (parseLit "workbook".toList (parseRun isJsSpace p6.2).2).bind fun r7 =>
  (parseCh (· = ':') (parseRun isJsSpace r7).2).bind fun p8 =>
  (parseLit "ExcelScript.Workbook".toList (parseRun isJsSpace p8.2).2).bind fun r9 =>
  (parseCh (· = ')') (parseRun isJsSpace r9).2).bind fun p10 =>
  (parseCh (· = '\x7b') (parseRun isJsSpace p10.2).2).bind fun p11 =>
  some ("async function createFinancialModel() \x7b\n  await Excel.run(async (context) => \x7b".toList,
    true, l.length - p11.2.length)

/-- Step 2: `/\bworkbook\./g` → `context.workbook.`. -/
def matchWorkbookDot (prev : Option Char) (l : Chars) : Option (Chars × Bool × Nat) :=
  if (match prev with | none => true | some p => !isWordChar p) then
    (parseLit "workbook.".toList l).bind fun r =>
    some ("context.workbook.".toList, true, l.length - r.length)
  else none

/-- Step 3: `/\.getWorksheet\(([^)]+)\)/g` → `.worksheets.getItem($1)`. -/
def matchGetWorksheet (l : Chars) : Option (Chars × Bool × Nat) :=
  (parseLit ".getWorksheet(".toList l).bind fun r1 =>
  (parseRun1 (· ≠ ')') r1).bind fun p2 =>
  (parseCh (· = ')') p2.2).bind fun p3 =>
  some (".worksheets.getItem(".toList ++ p2.1 ++ [')'], true, l.length - p3.2.length)

/-- Step 4: `/:\s*ExcelScript\.\w+/g` → removed. -/
def matchTypeAnnot (l : Chars) : Option (Chars × Bool × Nat) :=
  (parseCh (· = ':') l).bind fun p1 =>
  (parseLit "ExcelScript.".toList (parseRun isJsSpace p1.2).2).bind fun r2 =>
  (parseRun1 isWordChar r2).bind fun p3 =>
  some ([], true, l.length - p3.2.length)

/-- Step 5's pattern `/(\s*)\}(\s*)$/` (no `m` flag; `$` modelled as end of
string — the JavaScript subtlety that `$` also matches just before a final
newline is not exercised by any theorem below). -/
def matchCloseBraceEnd (l : Chars) : Option (Chars × Chars) :=
  let ws1 := l.takeWhile isJsSpace
  match l.dropWhile isJsSpace with
  | c :: r1 =>
    if c = '\x7d' then
      let ws2 := r1.takeWhile isJsSpace
      if r1.dropWhile isJsSpace = [] then some (ws1, ws2) else none
    else none
  | [] => none

/-- Step 5: first (leftmost) match of the closing-brace pattern, replaced by
either the sync-inserting or the plain brace-fixing text. -/
def fixCloseBraces (withSync : Bool) : Chars → Chars × Nat
  | [] => ([], 0)
  | c :: l =>
    match matchCloseBraceEnd (c :: l) with
    | some (ws1, ws2) =>
      if withSync then
        (ws1 ++ "  await context.sync();\n".toList ++ ws1 ++ "\x7d);\n\x7d".toList ++ ws2, 1)
      else (ws1 ++ "\x7d);\n\x7d".toList ++ ws2, 1)
    | none =>
      let r := fixCloseBraces withSync l
      (c :: r.1, r.2)

/-- Step 6: `/let\s+(\w+)\s*:\s*\w+\s*=/g` → `let $1 =`. -/
def matchLetTyped (l : Chars) : Option (Chars × Bool × Nat) :=
  (parseLit "let".toList l).bind fun r1 =>
  (parseRun1 isJsSpace r1).bind fun p2 =>
  (parseRun1 isWordChar p2.2).bind fun p3 =>
  (parseCh (· = ':') (parseRun isJsSpace p3.2).2).bind fun p4 =>
  (parseRun1 isWordChar (parseRun isJsSpace p4.2).2).bind fun p5 =>
  (parseCh (· = '=') (parseRun isJsSpace p5.2).2).bind fun p6 =>
  some ("let ".toList ++ p3.1 ++ " =".toList, true, l.length - p6.2.length)

/-- Step 7, first fence: `.replace(/```javascript\s*/, '')` (first match
only). -/
def matchFenceJs (l : Chars) : Option (Chars × Nat) :=
  (parseLit "```javascript".toList l).bind fun r =>
  some ([], l.length - (r.dropWhile isJsSpace).length)

/-- Step 7, closing fence: `.replace(/```\s*$/, '')` (first match only; `$`
modelled as end of string). -/
def matchFenceEnd (l : Chars) : Option (Chars × Nat) :=
  (parseLit "```".toList l).bind fun r =>
  if r.dropWhile isJsSpace = [] then some ([], l.length) else none

/-- Step 8's `officeScriptMethods` pairs (the `.getRange(` entry is skipped by
the source's own guard). -/
def officeMethodPairs : List (Chars × Chars) :=
  [(".getTables()".toList, ".tables.items".toList),
   (".getCharts()".toList, ".charts.items".toList),
   (".getPivotTables()".toList, ".pivotTables.items".toList),
   (".getRange(".toList, ".getRange(".toList)]

def replaceLitAll (old new : Chars) (l : Chars) : Chars :=
  replaceAll (fun s => (parseLit old s).bind fun r => some (new, s.length - r.length)) l

def officeStep8 (c : Chars) : Chars × Nat :=
  officeMethodPairs.foldl
    (fun acc pr =>
      if pr.1 ≠ ".getRange(".toList && containsSub pr.1 acc.1 then
        (replaceLitAll pr.1 pr.2 acc.1, acc.2 + 1)
      else acc)
    (c, 0)

/-- `fixOfficeScriptsApiPattern`: all eight conversion steps, applied only when
the Office Scripts dialect is detected; the fence removals of step 7 do not
increment the counter. -/
def fixOfficeScriptsApiPattern (code : Chars) : Chars × Nat :=
  if officeScriptsDetected code then
    let s1 := replaceCntAll matchMainSignature code
    let s2 := replaceCntAllB matchWorkbookDot s1.1
    let s3 := replaceCntAll matchGetWorksheet s2.1
    let s4 := replaceCntAll matchTypeAnnot s3.1
    let s5 := fixCloseBraces (!containsSub "context.sync()".toList s4.1) s4.1
    let s6 := replaceCntAll matchLetTyped s5.1
    let s7 := repFirst matchFenceEnd (repFirst matchFenceJs s6.1)
    let s8 := officeStep8 s7
    (s8.1, s1.2 + s2.2 + s3.2 + s4.2 + s5.2 + s6.2 + s8.2)
  else (code, 0)

/-- `applyEdgeCaseCorrections`: the eight rules in source order, with the
summed `correctionsApplied` counter. -/
def applyEdgeCaseCorrections (code : Chars) : Chars × Nat :=
  let s1 := replaceCntAll matchInvalidSheet code
  let s2 := replaceCntAll matchLargeRange s1.1
  let s3 := replaceCntAll matchCircularRef s2.1
  let s4 := replaceCntAll matchMixedType s3.1
  let s5 := edgeRule5 s4.1 code
  let s6 := edgeRule6 s5.1 code
  let s7 := replaceCntAll matchInvalidRange s6.1
  let s8 := fixOfficeScriptsApiPattern s7.1
  (s8.1, s1.2 + s2.2 + s3.2 + s4.2 + s5.2 + s6.2 + s7.2 + s8.2)

/-- `autoCorrectArrayDimensions`: per-line Patterns 1–4, the logging-only
"additional pass" (no mutation, omitted), orphaned-call insertion over the
declared functions, then `applyEdgeCaseCorrections`, whose result replaces the
text only when its counter is positive. -/
def autoCorrectArrayDimensions (code : Chars) : Chars :=
  let c1 := joinNl ((splitNl code).map correctLine)
  let decls := declaredFunctionsOf c1
  let c2 := decls.foldl addCallIfMissing c1
  let ec := applyEdgeCaseCorrections c2
  if 0 < ec.2 then ec.1 else c2

/-- The code-selection logic of `executeExcelScriptCode` (lines 347–380):
when validation fails or reports fixable issues, run the corrector, re-validate
and keep the corrected text if it is now valid or strictly reduced the error
count, else keep the original. -/
def chooseExecutionCode (code : Chars) : Chars :=
  let v := validateGeneratedCode code
  if !v.isValid || !v.fixableIssues.isEmpty then
    let corrected := autoCorrectArrayDimensions code
    let cv := validateGeneratedCode corrected
    if cv.isValid then corrected
    else if cv.errors.length < v.errors.length then corrected
    else code
  else code

/-! ## Mock sandbox

`testCodeInMockEnvironmentSimple` builds range objects whose property setters
push an operation record and then validate the assigned data;
`MockExcelEnvironment.validateRangeOperation` adds the range/shape
cross-check.  Values are modelled by `JVal`; thrown `Error` messages by the
constructors of `MockErr`, each doc-commented with the message template. -/

/-- A JavaScript value as it appears in a bulk assignment. -/
inductive JVal where
  | str (v : Chars)
  | num (v : Int)
  | boolV (v : Bool)
  | nullV
  | undefV
  | arr (elems : List JVal)

def JVal.isArr : JVal → Bool
  | .arr _ => true
  | _ => false

/-- JavaScript `x.length`: defined for arrays and strings, `undefined`
otherwise. -/
def jsLen : JVal → Option Nat
  | .arr es => some es.length
  | .str s => some s.length
  | _ => none

/-- `data[0]?.length || 0`. -/
def jsLenOrZero : Option JVal → Nat
  | some v => (jsLen v).getD 0
  | none => 0

/-- An `OperationRecord` (the source also stores a timestamp, which carries no
information for these claims and is elided). -/
structure OpRec where
  type : Chars
  range : Chars
  payload : JVal

/-- Errors thrown by the mock sandbox. -/
inductive MockErr where
  /-- "Non-array data for range (address)". -/
  | nonArrayData (address : Chars)
  /-- "1D array detected for range (address) - Excel requires 2D arrays". -/
  | oneDArray (address : Chars)
  /-- "Non-array formulas for range (address)". -/
  | nonArrayFormulas (address : Chars)
  /-- "1D formula array detected for range (address) - Excel requires 2D arrays". -/
  | oneDFormulaArray (address : Chars)
  /-- "Array dimension mismatch: Range (range) expects (r)x(c), got (ar)x(ac)". -/
  | dimensionMismatch (range : Chars) (expectedRows expectedCols : Int)
      (actualRows actualCols : Nat)
  /-- "1D array detected for range (range) - Excel requires 2D arrays"
  (thrown by `validateRangeOperation`). -/
  | oneDForRange (range : Chars)

/-- The `set values` accessor of `testCodeInMockEnvironmentSimple`'s mock
range: the operation is pushed *before* validation, so it is recorded even
when the setter then throws; nothing is ever persisted. -/
def simpleSetValues (address : Chars) (data : JVal) : List OpRec × Option MockErr :=
  ([⟨"setValue".toList, address, data⟩],
    match data with
    | .arr [] => none
    | .arr (e :: _) => if e.isArr then none else some (.oneDArray address)
    | _ => some (.nonArrayData address))

/-- The `set formulas` accessor of the same mock range. -/
def simpleSetFormulas (address : Chars) (data : JVal) : List OpRec × Option MockErr :=
  ([⟨"setFormula".toList, address, data⟩],
    match data with
    | .arr [] => none
    | .arr (e :: _) => if e.isArr then none else some (.oneDFormulaArray address)
    | _ => some (.nonArrayFormulas address))

/-- The format setters of the mock range: record only, never persist, never
throw. -/
def simpleSetFillColor (address color : Chars) : List OpRec :=
  [⟨"setFillColor".toList, address, .str color⟩]
def simpleSetFontBold (address : Chars) (v : Bool) : List OpRec :=
  [⟨"setFontBold".toList, address, .boolV v⟩]
def simpleSetFontSize (address : Chars) (v : Int) : List OpRec :=
  [⟨"setFontSize".toList, address, .num v⟩]
def simpleSetFontColor (address color : Chars) : List OpRec :=
  [⟨"setFontColor".toList, address, .str color⟩]
def simpleSetNumberFormat (address fmt : Chars) : List OpRec :=
  [⟨"setNumberFormat".toList, address, .str fmt⟩]

structure RangeInfo where
  startRow : Nat
  endRow : Nat
  startCol : Nat
  endCol : Nat
deriving DecidableEq, Repr

/-- `MockExcelEnvironment.columnToNumber`. -/
def columnToNumber (col : Chars) : Nat :=
  col.foldl (fun r c => r * 26 + (c.toNat - 64)) 0

/-- `MockExcelEnvironment.parseRange`:
`/^([A-Z]+)(\d+)(?::([A-Z]+)(\d+))?$/` (anchored at both ends). -/
def parseRangeAddr (range : Chars) : Option RangeInfo :=
  (parseRun1 isUpperAZ range).bind fun p1 =>
  (parseRun1 Char.isDigit p1.2).bind fun p2 =>
  match p2.2 with
  | [] =>
    some ⟨natOfDigits p2.1, natOfDigits p2.1, columnToNumber p1.1, columnToNumber p1.1⟩
  | ':' :: r3 =>
    (parseRun1 isUpperAZ r3).bind fun p4 =>
    (parseRun1 Char.isDigit p4.2).bind fun p5 =>
    if p5.2 = [] then
      some ⟨natOfDigits p2.1, natOfDigits p5.1, columnToNumber p1.1, columnToNumber p4.1⟩
    else none
  | _ => none

def expectedRowsOf (ri : RangeInfo) : Int := (ri.endRow : Int) - ri.startRow + 1
def expectedColsOf (ri : RangeInfo) : Int := (ri.endCol : Int) - ri.startCol + 1

/-- `MockExcelEnvironment.validateRangeOperation`: with a parseable address
and array data, first the row/column mismatch check
(`actualRows !== expectedRows || actualCols !== expectedCols`), then the 1-D
check (`!Array.isArray(data[0])`); non-array data and unparseable addresses
pass silently. -/
def validateRangeOperation (range : Chars) (data : JVal) : Option MockErr :=
  match parseRangeAddr range with
  | none => none
  | some ri =>
    match data with
    | .arr rows =>
      let actualRows := rows.length
      let actualCols := jsLenOrZero rows.head?
      if (actualRows : Int) ≠ expectedRowsOf ri ∨ (actualCols : Int) ≠ expectedColsOf ri then
        some (.dimensionMismatch range (expectedRowsOf ri) (expectedColsOf ri)
          actualRows actualCols)
      else if (match rows.head? with | some h => !h.isArr | none => true) then
        some (.oneDForRange range)
      else none
    | _ => none

/-! ## Claims about the validator, corrector, selection logic and sandbox -/

/-! ### Helper lemmas relating the matchers to substring occurrences -/

theorem parseLit_isSome_iff (w l : Chars) : (parseLit w l).isSome = w.isPrefixOf l := by
  induction w generalizing l with
  | nil => cases l <;> rfl
  | cons a w ih =>
    cases l with
    | nil => rfl
    | cons b l' =>
      by_cases hab : a = b
      · subst hab
        simp [parseLit, List.isPrefixOf, ih]
      · simp [parseLit, List.isPrefixOf, hab]

theorem parseLit_eq_none {w l : Chars} (h : w.isPrefixOf l = false) :
    parseLit w l = none := by
  have := parseLit_isSome_iff w l
  rw [h] at this
  exact Option.not_isSome_iff_eq_none.mp (by simp [this])

/-- Completeness of the substring test: an occurrence at any position makes
`containsSub` true. -/
theorem containsSub_complete {w l : Chars} (i : Nat)
    (h : w.isPrefixOf (l.drop i) = true) : containsSub w l = true := by
  induction l generalizing i with
  | nil =>
    cases i with
    | zero =>
      cases w with
      | nil => rfl
      | cons a w' => simp [List.isPrefixOf] at h
    | succ i' =>
      cases w with
      | nil => rfl
      | cons a w' => simp [List.isPrefixOf] at h
  | cons c l' ih =>
    cases i with
    | zero =>
      simp only [List.drop_zero] at h
      simp [containsSub, h]
    | succ i' =>
      simp only [List.drop_succ_cons] at h
      simp [containsSub, ih i' h]

/-- Both site parsers fail wherever the property literal is not present. -/
theorem p1SiteAt_eq_none {prop l : Chars} (h : prop.isPrefixOf l = false) :
    p1SiteAt prop l = none := by
  simp [p1SiteAt, parseLit_eq_none h]

theorem p3SiteAt_eq_none {prop l : Chars} (h : prop.isPrefixOf l = false) :
    p3SiteAt prop l = none := by
  simp [p3SiteAt, parseLit_eq_none h]

/-- `lastSiteGo` finds nothing when the site parser fails at every suffix. -/
theorem lastSiteGo_eq_none {site : Chars → Option (Chars × Chars × Chars)}
    (l : Chars) (j : Nat) (h : ∀ k, site (l.drop k) = none) :
    lastSiteGo site j l = none := by
  induction l generalizing j with
  | nil => rfl
  | cons c l' ih =>
    have h0 : site (c :: l') = none := by simpa using h 0
    have hrest := ih (j + 1) (fun k => by simpa using h (k + 1))
    simp [lastSiteGo, hrest, h0]

theorem wrapRewrite_eq_none {prop line : Chars}
    (h : ∀ k, p1SiteAt prop (line.drop k) = none) :
    wrapRewrite prop line = none := by
  simp [wrapRewrite, lastSiteGo_eq_none line 0 h]

/-! ### Generic scan lemmas for parametric proofs -/

theorem parseLit_cons_ne {a b : Char} {w l : Chars} (h : ¬ a = b) :
    parseLit (a :: w) (b :: l) = none := by
  simp [parseLit, h]

theorem scanGo_eq_nil_of_none_from {α : Type} {m : Chars → Option (α × Nat)} :
    ∀ (l : Chars) (k0 ln : Nat), (∀ k, k0 ≤ k → m (l.drop k) = none) →
      scanGo m k0 ln l = [] := by
  intro l
  induction l with
  | nil => intro k0 ln _; exact scanGo_nil m k0 ln
  | cons c l' ih =>
    intro k0 ln h
    cases k0 with
    | zero =>
      have h0 : m (c :: l') = none := by simpa using h 0 (Nat.le_refl 0)
      rw [scanGo_cons_none ln h0]
      exact ih 0 _ (fun k _ => by simpa using h (k + 1) (by omega))
    | succ k0' =>
      rw [scanGo_succ]
      exact ih k0' _ (fun k hk => by simpa using h (k + 1) (by omega))

/-- A scan whose matcher fires at exactly one position (with the text free of
newlines) yields exactly that one payload, at line `ln`. -/
theorem scanGo_single {α : Type} {m : Chars → Option (α × Nat)} :
    ∀ (l : Chars) (p : Nat) (a : α) (n ln : Nat),
      (∀ c ∈ l, c ≠ '\n') →
      (∀ k, k < p → m (l.drop k) = none) →
      m (l.drop p) = some (a, n) →
      1 ≤ n →
      (∀ k, p + n ≤ k → m (l.drop k) = none) →
      scanGo m 0 ln l = [(a, ln)] := by
  intro l
  induction l with
  | nil =>
    intro p a n ln _ _ hp _ ha
    have hcontra := ha (p + n) (Nat.le_refl _)
    simp only [List.drop_nil] at hp hcontra
    rw [hcontra] at hp
    cases hp
  | cons c l' ih =>
    intro p a n ln hnl hb hp h1 ha
    have hln : nextLn c ln = ln := by
      simp [nextLn, hnl c (List.mem_cons_self _ _)]
    cases p with
    | zero =>
      simp only [List.drop_zero] at hp
      rw [scanGo_cons_some ln hp, hln]
      have hnil : scanGo m (n - 1) ln l' = [] := by
        refine scanGo_eq_nil_of_none_from l' (n - 1) ln ?_
        intro k hk
        have := ha (k + 1) (by omega)
        simpa using this
      rw [hnil]
    | succ p' =>
      have h0 : m (c :: l') = none := by simpa using hb 0 (by omega)
      rw [scanGo_cons_none ln h0, hln]
      exact ih p' a n ln (fun d hd => hnl d (List.mem_cons_of_mem _ hd))
        (fun k hk => by simpa using hb (k + 1) (by omega))
        (by simpa using hp) h1
        (fun k hk => by simpa using ha (k + 1) (by omega))

theorem repCntGo_id {m : Chars → Option (Chars × Bool × Nat)} :
    ∀ (l : Chars) (prev : Option Char), (∀ k, m (l.drop k) = none) →
      repCntGo (fun _ s => m s) prev 0 l = (l, 0) := by
  intro l
  induction l with
  | nil => intro prev _; rfl
  | cons c l' ih =>
    intro prev h
    have h0 : m (c :: l') = none := by simpa using h 0
    simp only [repCntGo, h0]
    rw [ih (some c) (fun k => by simpa using h (k + 1))]

theorem replaceCntAll_id {m : Chars → Option (Chars × Bool × Nat)} (l : Chars)
    (h : ∀ k, m (l.drop k) = none) : replaceCntAll m l = (l, 0) :=
  repCntGo_id l none h

theorem takeWhile_append_of_all {p : Char → Bool} {a : Chars} (b : Chars)
    (h : ∀ c ∈ a, p c = true) : (a ++ b).takeWhile p = a ++ b.takeWhile p := by
  induction a with
  | nil => rfl
  | cons c a' ih =>
    have hc := h c (List.mem_cons_self _ _)
    simp only [List.cons_append, List.takeWhile_cons, hc, if_true]
    rw [ih (fun d hd => h d (List.mem_cons_of_mem _ hd))]

theorem dropWhile_append_of_all {p : Char → Bool} {a : Chars} (b : Chars)
    (h : ∀ c ∈ a, p c = true) : (a ++ b).dropWhile p = b.dropWhile p := by
  induction a with
  | nil => rfl
  | cons c a' ih =>
    have hc := h c (List.mem_cons_self _ _)
    simp only [List.cons_append, List.dropWhile_cons, hc, if_true]
    exact ih (fun d hd => h d (List.mem_cons_of_mem _ hd))

/-- Position-wise properties over a concatenation: concrete head side plus a
property of every suffix of the tail. -/
theorem forall_drop_append (P : Chars → Prop) (A B : Chars)
    (hA : ∀ k, k < A.length → P (A.drop k ++ B))
    (hB : ∀ k, P (B.drop k)) : ∀ k, P ((A ++ B).drop k) := by
  induction A with
  | nil => intro k; simpa using hB k
  | cons a A' ih =>
    intro k
    cases k with
    | zero => simpa using hA 0 (by simp)
    | succ k' =>
      simp only [List.cons_append, List.drop_succ_cons]
      refine ih (fun k hk => ?_) k'
      have := hA (k + 1) (by simpa using Nat.succ_lt_succ hk)
      simpa using this

/-- Position-wise properties over a concatenation whose head part is only
known by a per-character head property. -/
theorem forall_drop_append_of_head (P : Chars → Prop) (content B : Chars)
    (hhead : ∀ c ∈ content, ∀ l, P (c :: l))
    (hB : ∀ k, P (B.drop k)) : ∀ k, P ((content ++ B).drop k) := by
  induction content with
  | nil => intro k; simpa using hB k
  | cons d rest ih =>
    intro k
    cases k with
    | zero => simpa using hhead d (List.mem_cons_self _ _) (rest ++ B)
    | succ k' =>
      simp only [List.cons_append, List.drop_succ_cons]
      exact ih (fun c hc l => hhead c (List.mem_cons_of_mem _ hc) l) k'

/-- Positions beyond the length give the same suffix as the length itself. -/
theorem forall_drop_of_bounded (P : Chars → Prop) (A : Chars)
    (h : ∀ k, k ≤ A.length → P (A.drop k)) : ∀ k, P (A.drop k) := by
  intro k
  by_cases hk : k ≤ A.length
  · exact h k hk
  · have h1 : A.drop k = [] := List.drop_eq_nil_of_le (by omega)
    have h2 := h A.length (Nat.le_refl _)
    rw [List.drop_length] at h2
    rw [h1]
    exact h2

theorem forall_drop_single (P : Chars → Prop) (c : Char)
    (h0 : P [c]) (h1 : P []) : ∀ k, P (([c] : Chars).drop k) := by
  intro k
  cases k with
  | zero => exact h0
  | succ n =>
    have he : (([c] : Chars)).drop (n + 1) = [] := by simp
    rw [he]
    exact h1

theorem forall_drop_two (P : Chars → Prop) (c d : Char)
    (h0 : P [c, d]) (h1 : P [d]) (h2 : P []) : ∀ k, P (([c, d] : Chars).drop k) := by
  intro k
  match k with
  | 0 => exact h0
  | 1 => exact h1
  | n + 2 =>
    have he : (([c, d] : Chars)).drop (n + 2) = [] := by simp
    rw [he]
    exact h2

theorem isPrefixOf_nil_left (l : Chars) : (([] : Chars)).isPrefixOf l = true := by
  cases l <;> rfl

/-- `lastSiteGo` finds exactly the unique viable site when all later positions
fail. -/
theorem lastSiteGo_eq {site : Chars → Option (Chars × Chars × Chars)} :
    ∀ (l : Chars) (p j : Nat) (parts : Chars × Chars × Chars),
      p < l.length →
      site (l.drop p) = some parts →
      (∀ k, p < k → site (l.drop k) = none) →
      lastSiteGo site j l = some (j + p, parts) := by
  intro l
  induction l with
  | nil => intro p j parts hlen; exact absurd hlen (by simp)
  | cons c l' ih =>
    intro p j parts hlen hp hafter
    cases p with
    | zero =>
      simp only [List.drop_zero] at hp
      have hnone : lastSiteGo site (j + 1) l' = none :=
        lastSiteGo_eq_none l' (j + 1) (fun k => by simpa using hafter (k + 1) (by omega))
      simp [lastSiteGo, hnone, hp]
    | succ p' =>
      have hlen' : p' < l'.length := by simpa using hlen
      have hp' : site (l'.drop p') = some parts := by simpa using hp
      have hrec := ih p' (j + 1) parts hlen' hp'
        (fun k hk => by simpa using hafter (k + 1) (by omega))
      simp only [lastSiteGo, hrec]
      have harith : (j + 1) + p' = j + (p' + 1) := by omega
      rw [harith]

theorem mem_trimJs {c : Char} {l : Chars} (h : c ∈ trimJs l) : c ∈ l := by
  unfold trimJs at h
  rw [List.mem_reverse] at h
  have h2 : c ∈ (l.dropWhile isJsSpace).reverse := (List.dropWhile_suffix _).subset h
  rw [List.mem_reverse] at h2
  exact (List.dropWhile_suffix _).subset h2

/-- Characters drawn from digits, comma and space are distinct from any
character outside that set. -/
theorem charset_ne {c : Char} (hc : c.isDigit = true ∨ c = ',' ∨ c = ' ')
    {t : Char} (ht : (t.isDigit || (t == ',') || (t == ' ')) = false) : c ≠ t := by
  intro he
  subst he
  rcases hc with h | h | h <;> simp_all

theorem splitNl_eq_single : ∀ (l : Chars), (∀ c ∈ l, c ≠ '\n') → splitNl l = [l] := by
  intro l
  induction l with
  | nil => intro _; rfl
  | cons c l' ih =>
    intro h
    have hc := h c (List.mem_cons_self _ _)
    have hrest := ih (fun d hd => h d (List.mem_cons_of_mem _ hd))
    simp [splitNl, hc, hrest]

theorem lazyFindKw_eq_none : ∀ (l : Chars),
    (∀ c ∈ l, c ≠ 't' ∧ c ≠ 'f' ∧ c ≠ 'n' ∧ c ≠ 'u' ∧ c ≠ '\n') →
    lazyFindKw l = none := by
  intro l
  induction l with
  | nil => intro _; rfl
  | cons c l' ih =>
    intro h
    obtain ⟨ht, hf, hn, hu, hnl⟩ := h c (List.mem_cons_self _ _)
    unfold lazyFindKw
    rw [show ("true".toList : Chars) = 't' :: "rue".toList from rfl,
      parseLit_cons_ne (fun he => ht he.symm)]
    rw [show ("false".toList : Chars) = 'f' :: "alse".toList from rfl,
      parseLit_cons_ne (fun he => hf he.symm)]
    rw [show ("null".toList : Chars) = 'n' :: "ull".toList from rfl,
      parseLit_cons_ne (fun he => hn he.symm)]
    rw [show ("undefined".toList : Chars) = 'u' :: "ndefined".toList from rfl,
      parseLit_cons_ne (fun he => hu he.symm)]
    show (if c = '\n' then none else lazyFindKw l') = none
    rw [if_neg hnl]
    exact ih (fun d hd => h d (List.mem_cons_of_mem _ hd))

/-- Reusable core for claim C10: a line whose bulk assignment already carries
a two-level literal (the outer bracket's content begins with `[`) is left
unchanged by the per-line dimension-wrapping patterns, provided the property
name occurs only in that assignment and the other property is absent. -/
theorem correctLine_id_two_level (pre m : Chars)
    (h1 : indexesSub ".values".toList
        (pre ++ (".values = [[".toList ++ (m ++ "]]".toList))) = [pre.length])
    (h2 : containsSub ".formulas".toList
        (pre ++ (".values = [[".toList ++ (m ++ "]]".toList))) = false) :
    correctLine (pre ++ (".values = [[".toList ++ (m ++ "]]".toList)))
      = pre ++ (".values = [[".toList ++ (m ++ "]]".toList)) := by
  set line := pre ++ (".values = [[".toList ++ (m ++ "]]".toList)) with hline
  have hdrop0 : line.drop pre.length = ".values = [[".toList ++ (m ++ "]]".toList) := by
    rw [hline, List.drop_left]
  have hv : containsSub ".values".toList line = true := by
    refine containsSub_complete pre.length ?_
    rw [hdrop0]
    rfl
  have he : containsSub "=".toList line = true := by
    refine containsSub_complete (pre.length + 8) ?_
    rw [hline, List.drop_append]
    rfl
  have hb : containsSub "[".toList line = true := by
    refine containsSub_complete (pre.length + 10) ?_
    rw [hline, List.drop_append]
    rfl
  have hw : wrapRewrite ".values".toList line = none := by
    refine wrapRewrite_eq_none ?_
    intro k
    by_cases hk : (".values".toList).isPrefixOf (line.drop k) = true
    · have hidx : k ∈ indexesSub ".values".toList line :=
        indexesSub_complete (by decide) hk
      rw [h1] at hidx
      have hkeq : k = pre.length := by simpa using hidx
      subst hkeq
      rw [hdrop0]
      rfl
    · refine p1SiteAt_eq_none ?_
      simp only [Bool.not_eq_true] at hk
      exact hk
  unfold correctLine
  simp only [hv, he, hb, h2, hw, Bool.true_and, Bool.false_and, if_true, if_false,
    Bool.false_eq_true]
  cases hq : containsSub "\"".toList line with
  | false => simp
  | true =>
    cases hsr : stringRewrite ".values".toList line with
    | none => simp
    | some r => simp [hb]

/-- The `.formulas` twin of `correctLine_id_two_level`. -/
theorem correctLine_id_two_level_formulas (pre m : Chars)
    (h1 : indexesSub ".formulas".toList
        (pre ++ (".formulas = [[".toList ++ (m ++ "]]".toList))) = [pre.length])
    (h2 : containsSub ".values".toList
        (pre ++ (".formulas = [[".toList ++ (m ++ "]]".toList))) = false) :
    correctLine (pre ++ (".formulas = [[".toList ++ (m ++ "]]".toList)))
      = pre ++ (".formulas = [[".toList ++ (m ++ "]]".toList)) := by
  set line := pre ++ (".formulas = [[".toList ++ (m ++ "]]".toList)) with hline
  have hdrop0 : line.drop pre.length = ".formulas = [[".toList ++ (m ++ "]]".toList) := by
    rw [hline, List.drop_left]
  have hf : containsSub ".formulas".toList line = true := by
    refine containsSub_complete pre.length ?_
    rw [hdrop0]
    rfl
  have he : containsSub "=".toList line = true := by
    refine containsSub_complete (pre.length + 10) ?_
    rw [hline, List.drop_append]
    rfl
  have hb : containsSub "[".toList line = true := by
    refine containsSub_complete (pre.length + 12) ?_
    rw [hline, List.drop_append]
    rfl
  have hw : wrapRewrite ".formulas".toList line = none := by
    refine wrapRewrite_eq_none ?_
    intro k
    by_cases hk : (".formulas".toList).isPrefixOf (line.drop k) = true
    · have hidx : k ∈ indexesSub ".formulas".toList line :=
        indexesSub_complete (by decide) hk
      rw [h1] at hidx
      have hkeq : k = pre.length := by simpa using hidx
      subst hkeq
      rw [hdrop0]
      rfl
    · refine p1SiteAt_eq_none ?_
      simp only [Bool.not_eq_true] at hk
      exact hk
  unfold correctLine
  simp only [hf, he, hb, h2, hw, Bool.true_and, Bool.false_and, if_true, if_false,
    Bool.false_eq_true]
  cases hq : containsSub "\"".toList line with
  | false => simp
  | true =>
    cases hsr : stringRewrite ".formulas".toList line with
    | none => simp
    | some r => simp [hb]

/-- Claim C10: a source line whose `.values` (resp. `.formulas`) assignment
already carries a two-level nested literal — the outer bracket's content
begins with `[` — is left unchanged by the dimension-wrapping patterns of
`autoCorrectArrayDimensions`, whenever the property name occurs only in that
assignment and the sibling property is absent from the line.  (Pattern 1/2's
content group cannot contain brackets, so no viable match exists at the
assignment; Pattern 3/4 are disabled by the `!line.includes('[')` guard.) -/
theorem C10_two_level_lines_unchanged (pre m pre2 m2 : Chars)
    (h1 : indexesSub ".values".toList
        (pre ++ (".values = [[".toList ++ (m ++ "]]".toList))) = [pre.length])
    (h2 : containsSub ".formulas".toList
        (pre ++ (".values = [[".toList ++ (m ++ "]]".toList))) = false)
    (h3 : indexesSub ".formulas".toList
        (pre2 ++ (".formulas = [[".toList ++ (m2 ++ "]]".toList))) = [pre2.length])
    (h4 : containsSub ".values".toList
        (pre2 ++ (".formulas = [[".toList ++ (m2 ++ "]]".toList))) = false) :
    correctLine (pre ++ (".values = [[".toList ++ (m ++ "]]".toList)))
      = pre ++ (".values = [[".toList ++ (m ++ "]]".toList))
    ∧ correctLine (pre2 ++ (".formulas = [[".toList ++ (m2 ++ "]]".toList)))
      = pre2 ++ (".formulas = [[".toList ++ (m2 ++ "]]".toList)) :=
  ⟨correctLine_id_two_level pre m h1 h2,
   correctLine_id_two_level_formulas pre2 m2 h3 h4⟩

theorem C10_two_level_lines_unchanged_witness :
    correctLine ("sheet.getRange(\"A1\")".toList
        ++ (".values = [[".toList ++ ("\"x\", \"y\"".toList ++ "]]".toList)))
      = "sheet.getRange(\"A1\")".toList
        ++ (".values = [[".toList ++ ("\"x\", \"y\"".toList ++ "]]".toList))
    ∧ correctLine ("sheet.getRange(\"B2\")".toList
        ++ (".formulas = [[".toList ++ ("\"=SUM(A1:A2)\"".toList ++ "]]".toList)))
      = "sheet.getRange(\"B2\")".toList
        ++ (".formulas = [[".toList ++ ("\"=SUM(A1:A2)\"".toList ++ "]]".toList)) :=
  C10_two_level_lines_unchanged "sheet.getRange(\"A1\")".toList "\"x\", \"y\"".toList
    "sheet.getRange(\"B2\")".toList "\"=SUM(A1:A2)\"".toList
    (by decide) (by decide) (by decide) (by decide)

/-- A chunk whose bulk-values literal contains a boolean. -/
def mixedBoolChunk : Chars := "x.values = [[true]]".toList

/-- Claim C3 (code bug): the corrector pipeline violates the spec's explicit
idempotence property `correct(correct(c)) == correct(c)` (testable property
8.1; the 4.2 contract also promises "idempotent per rule — running twice
yields the same result as once").  The mixed-type rule of
`applyEdgeCaseCorrections` (taskpane.ts lines 700-706) rewrites each match of
`/\.values\s*=\s*\[.*?(true|false|null|undefined).*?\]/g` with
`match.replace(/(true|false)/g, '"$1"').replace(/(null|undefined)/g, '""')`,
whose inner patterns carry no word-boundary or quote guard.  On
`x.values = [[true]]` the first pass matches the text `.values = [[true]`
(the lazy `.*?\]` stops at the first `]`) and yields
`x.values = [["true"]]`; on that output the rule fires again — the matched
text `.values = [["true"]` still contains the substring `true` — and
re-quotes it, producing the syntactically invalid `x.values = [[""true""]]`.
Hence `correct(correct(c)) ≠ correct(c)` at this chunk; the other pipeline
stages (Patterns 1-4, call insertion, the remaining edge rules) leave both
texts unchanged, as the two evaluated equalities pin down exactly. -/
theorem C3_corrector_not_idempotent :
    autoCorrectArrayDimensions mixedBoolChunk = "x.values = [[\"true\"]]".toList
    ∧ autoCorrectArrayDimensions (autoCorrectArrayDimensions mixedBoolChunk)
        = "x.values = [[\"\"true\"\"]]".toList
    ∧ autoCorrectArrayDimensions (autoCorrectArrayDimensions mixedBoolChunk)
        ≠ autoCorrectArrayDimensions mixedBoolChunk := by
  refine ⟨by decide, by decide, by decide⟩

/-- A chunk declaring `async function buildModel` with no call site: the name
occurs exactly once (the declaration). -/
def uncalledAsyncChunk : Chars :=
  ("async function buildModel() \x7b\n  context.workbook.worksheets.getItem(\"Sheet1\")"
    ++ ".getRange(\"A1\").values = [[\"Revenue\"]]\n\x7d").toList

/-- Claim C5 (code bug): for a declared-but-uncalled `async function
buildModel`, the validator reports no fixable issue and the corrector appends
no call — the call-detection pattern `funcName\s*\(` matches the declaration
text itself, so an uncalled function is never detected (contradicting the
repo's own self-diagnostics expectations).  The third conjunct shows the
chunk contains exactly one occurrence of `buildModel` (the declaration): there
is no call site. -/
theorem C5_uncalled_function_never_flagged :
    (validateGeneratedCode uncalledAsyncChunk).fixableIssues = []
    ∧ autoCorrectArrayDimensions uncalledAsyncChunk = uncalledAsyncChunk
    ∧ (indexesSub "buildModel".toList uncalledAsyncChunk).length = 1 := by
  refine ⟨by decide, by decide, by decide⟩

/-- Claim C7: whenever validation fails or reports fixable issues, the kept
code is the corrected text if it re-validates cleanly, else whichever of the
original and corrected texts has fewer validation errors — the kept code's
error count is exactly the minimum of the two counts seen. -/
theorem C7_keep_best_code (code : Chars)
    (hguard : (validateGeneratedCode code).isValid = false
      ∨ (validateGeneratedCode code).fixableIssues ≠ []) :
    (validateGeneratedCode (chooseExecutionCode code)).errors.length
      = min (validateGeneratedCode code).errors.length
          (validateGeneratedCode (autoCorrectArrayDimensions code)).errors.length
    ∧ ((validateGeneratedCode (autoCorrectArrayDimensions code)).isValid = true →
        chooseExecutionCode code = autoCorrectArrayDimensions code) := by
  have hcond : (!(validateGeneratedCode code).isValid
      || !(validateGeneratedCode code).fixableIssues.isEmpty) = true := by
    rcases hguard with h | h
    · simp [h]
    · simp [List.isEmpty_iff, h]
  unfold chooseExecutionCode
  simp only [hcond, if_true, Bool.or_eq_true]
  by_cases hv : (validateGeneratedCode (autoCorrectArrayDimensions code)).isValid = true
  · have hnil : (validateGeneratedCode (autoCorrectArrayDimensions code)).errors = [] := by
      simpa [VReport.isValid, List.isEmpty_iff] using hv
    simp [hv, hnil]
  · simp only [Bool.not_eq_true] at hv
    simp only [hv, Bool.false_eq_true, if_false]
    by_cases hlt : (validateGeneratedCode (autoCorrectArrayDimensions code)).errors.length
        < (validateGeneratedCode code).errors.length
    · simp only [hlt, if_true]
      constructor
      · omega
      · exact fun hcontra => hcontra.elim
    · simp only [hlt, if_false]
      constructor
      · omega
      · exact fun hcontra => hcontra.elim

/-- Sample chunk for the selection logic: a one-level bulk assignment, no
Excel.run wrapper. -/
def oneLevelSample : Chars := "x.values = [1]".toList

theorem C7_keep_best_code_witness :
    (validateGeneratedCode (chooseExecutionCode oneLevelSample)).errors.length
      = min (validateGeneratedCode oneLevelSample).errors.length
          (validateGeneratedCode (autoCorrectArrayDimensions oneLevelSample)).errors.length
    ∧ ((validateGeneratedCode (autoCorrectArrayDimensions oneLevelSample)).isValid = true →
        chooseExecutionCode oneLevelSample = autoCorrectArrayDimensions oneLevelSample) :=
  C7_keep_best_code oneLevelSample (Or.inr (by decide))

/-- Claim C8: in the mock sandbox every mutating property set is recorded as
an operation record (even when the setter then throws) and nothing is
persisted; assigning a one-level array to `.values`/`.formulas` raises the 1-D
dimension error; and a two-level literal whose row/column shape differs from
an explicit rectangular address raises the dimension-mismatch error of
`validateRangeOperation`. -/
theorem C8_mock_sandbox (address color fmt : Chars) (bold : Bool) (size : Int)
    (data e : JVal) (es : List JVal) (range : Chars) (ri : RangeInfo) (rows : List JVal)
    (he : e.isArr = false)
    (hri : parseRangeAddr range = some ri)
    (hshape : (rows.length : Int) ≠ expectedRowsOf ri
      ∨ ((jsLenOrZero rows.head? : Int) ≠ expectedColsOf ri)) :
    (simpleSetValues address data).1 = [⟨"setValue".toList, address, data⟩]
    ∧ (simpleSetFormulas address data).1 = [⟨"setFormula".toList, address, data⟩]
    ∧ simpleSetFillColor address color = [⟨"setFillColor".toList, address, .str color⟩]
    ∧ simpleSetFontBold address bold = [⟨"setFontBold".toList, address, .boolV bold⟩]
    ∧ simpleSetFontSize address size = [⟨"setFontSize".toList, address, .num size⟩]
    ∧ simpleSetFontColor address color = [⟨"setFontColor".toList, address, .str color⟩]
    ∧ simpleSetNumberFormat address fmt = [⟨"setNumberFormat".toList, address, .str fmt⟩]
    ∧ (simpleSetValues address (.arr (e :: es))).2 = some (.oneDArray address)
    ∧ (simpleSetFormulas address (.arr (e :: es))).2 = some (.oneDFormulaArray address)
    ∧ validateRangeOperation range (.arr rows)
        = some (.dimensionMismatch range (expectedRowsOf ri) (expectedColsOf ri)
            rows.length (jsLenOrZero rows.head?)) := by
  refine ⟨rfl, rfl, rfl, rfl, rfl, rfl, rfl, ?_, ?_, ?_⟩
  · simp [simpleSetValues, he]
  · simp [simpleSetFormulas, he]
  · unfold validateRangeOperation
    rw [hri]
    exact if_pos hshape

theorem C8_mock_sandbox_witness :
    (simpleSetValues "A1".toList (.str "x".toList)).1
      = [⟨"setValue".toList, "A1".toList, .str "x".toList⟩]
    ∧ (simpleSetFormulas "A1".toList (.str "x".toList)).1
      = [⟨"setFormula".toList, "A1".toList, .str "x".toList⟩]
    ∧ simpleSetFillColor "A1".toList "#FF0000".toList
      = [⟨"setFillColor".toList, "A1".toList, .str "#FF0000".toList⟩]
    ∧ simpleSetFontBold "A1".toList true = [⟨"setFontBold".toList, "A1".toList, .boolV true⟩]
    ∧ simpleSetFontSize "A1".toList 12 = [⟨"setFontSize".toList, "A1".toList, .num 12⟩]
    ∧ simpleSetFontColor "A1".toList "#FF0000".toList
      = [⟨"setFontColor".toList, "A1".toList, .str "#FF0000".toList⟩]
    ∧ simpleSetNumberFormat "A1".toList "0.00".toList
      = [⟨"setNumberFormat".toList, "A1".toList, .str "0.00".toList⟩]
    ∧ (simpleSetValues "A1".toList (.arr [.num 1])).2 = some (.oneDArray "A1".toList)
    ∧ (simpleSetFormulas "A1".toList (.arr [.num 1])).2
      = some (.oneDFormulaArray "A1".toList)
    ∧ validateRangeOperation "A1:B2".toList (.arr [.arr [.str "x".toList]])
        = some (.dimensionMismatch "A1:B2".toList 2 2 1 1) :=
  C8_mock_sandbox "A1".toList "#FF0000".toList "0.00".toList true 12
    (.str "x".toList) (.num 1) [] "A1:B2".toList ⟨1, 2, 1, 2⟩ [.arr [.str "x".toList]]
    rfl (by rfl) (Or.inl (by decide))


/-! ## Claim C6: one-level bulk assignments

`c6Code content` is the one-level assignment line `cell.values = [<content>]`
and `c6Fixed content` its two-level rewrite; `content` ranges over the
digit/comma/space character set. -/

def c6Code (content : Chars) : Chars :=
  "cell.values = [".toList ++ (content ++ "]".toList)

def c6Fixed (content : Chars) : Chars :=
  "cell.values = [[".toList ++ (content ++ "]]".toList)

/-! Head-character failure lemmas: each scanner needs its literal's first
character at the match start. -/

theorem matchAsyncFunctionDecl_head_ne {c : Char} (h : c ≠ 'a') (l : Chars) :
    matchAsyncFunctionDecl (c :: l) = none := by
  unfold matchAsyncFunctionDecl
  rw [show ("async".toList : Chars) = 'a' :: "sync".toList from rfl,
    parseLit_cons_ne (fun he => h he.symm)]
  rfl

theorem matchValuesOneLevel_head_ne {c : Char} (h : c ≠ '.') (l : Chars) :
    matchValuesOneLevel (c :: l) = none := by
  unfold matchValuesOneLevel
  rw [show (".values".toList : Chars) = '.' :: "values".toList from rfl,
    parseLit_cons_ne (fun he => h he.symm)]
  rfl

theorem matchFormulasOneLevel_head_ne {c : Char} (h : c ≠ '.') (l : Chars) :
    matchFormulasOneLevel (c :: l) = none := by
  unfold matchFormulasOneLevel
  rw [show (".formulas".toList : Chars) = '.' :: "formulas".toList from rfl,
    parseLit_cons_ne (fun he => h he.symm)]
  rfl

theorem matchValuesStringLit_head_ne {c : Char} (h : c ≠ '.') (l : Chars) :
    matchValuesStringLit (c :: l) = none := by
  unfold matchValuesStringLit
  rw [show (".values".toList : Chars) = '.' :: "values".toList from rfl,
    parseLit_cons_ne (fun he => h he.symm)]
  rfl

theorem matchFormulasStringLit_head_ne {c : Char} (h : c ≠ '.') (l : Chars) :
    matchFormulasStringLit (c :: l) = none := by
  unfold matchFormulasStringLit
  rw [show (".formulas".toList : Chars) = '.' :: "formulas".toList from rfl,
    parseLit_cons_ne (fun he => h he.symm)]
  rfl

theorem matchRangeValues_head_ne {c : Char} (h : c ≠ 'g') (l : Chars) :
    matchRangeValues (c :: l) = none := by
  unfold matchRangeValues
  rw [show ("getRange(\"".toList : Chars) = 'g' :: "etRange(\"".toList from rfl,
    parseLit_cons_ne (fun he => h he.symm)]
  rfl

theorem matchFunctionDecl_head_ne {c : Char} (h : c ≠ 'f') (l : Chars) :
    matchFunctionDecl (c :: l) = none := by
  unfold matchFunctionDecl
  rw [show ("function".toList : Chars) = 'f' :: "unction".toList from rfl,
    parseLit_cons_ne (fun he => h he.symm)]
  rfl

theorem matchConstAsyncDecl_head_ne {c : Char} (h : c ≠ 'c') (l : Chars) :
    matchConstAsyncDecl (c :: l) = none := by
  unfold matchConstAsyncDecl matchKwAsyncDecl
  rw [show ("const".toList : Chars) = 'c' :: "onst".toList from rfl,
    parseLit_cons_ne (fun he => h he.symm)]
  rfl

theorem matchLetAsyncDecl_head_ne {c : Char} (h : c ≠ 'l') (l : Chars) :
    matchLetAsyncDecl (c :: l) = none := by
  unfold matchLetAsyncDecl matchKwAsyncDecl
  rw [show ("let".toList : Chars) = 'l' :: "et".toList from rfl,
    parseLit_cons_ne (fun he => h he.symm)]
  rfl

theorem matchVarAsyncDecl_head_ne {c : Char} (h : c ≠ 'v') (l : Chars) :
    matchVarAsyncDecl (c :: l) = none := by
  unfold matchVarAsyncDecl matchKwAsyncDecl
  rw [show ("var".toList : Chars) = 'v' :: "ar".toList from rfl,
    parseLit_cons_ne (fun he => h he.symm)]
  rfl

theorem matchAsyncMainDecl_head_ne {c : Char} (h : c ≠ 'a') (l : Chars) :
    matchAsyncMainDecl (c :: l) = none := by
  unfold matchAsyncMainDecl
  rw [show ("async".toList : Chars) = 'a' :: "sync".toList from rfl,
    parseLit_cons_ne (fun he => h he.symm)]
  rfl

theorem matchInvalidSheet_head_ne {c : Char} (h : c ≠ '.') (l : Chars) :
    matchInvalidSheet (c :: l) = none := by
  unfold matchInvalidSheet
  rw [show (".worksheets.getItem(".toList : Chars) = '.' :: "worksheets.getItem(".toList from rfl,
    parseLit_cons_ne (fun he => h he.symm)]
  rfl

theorem matchLargeRange_head_ne {c : Char} (h : c ≠ '.') (l : Chars) :
    matchLargeRange (c :: l) = none := by
  unfold matchLargeRange
  rw [show (".getRange(".toList : Chars) = '.' :: "getRange(".toList from rfl,
    parseLit_cons_ne (fun he => h he.symm)]
  rfl

theorem matchCircularRef_head_ne {c : Char} (h : c ≠ '.') (l : Chars) :
    matchCircularRef (c :: l) = none := by
  unfold matchCircularRef
  rw [show (".formulas".toList : Chars) = '.' :: "formulas".toList from rfl,
    parseLit_cons_ne (fun he => h he.symm)]
  rfl

theorem matchMixedType_head_ne {c : Char} (h : c ≠ '.') (l : Chars) :
    matchMixedType (c :: l) = none := by
  unfold matchMixedType
  rw [show (".values".toList : Chars) = '.' :: "values".toList from rfl,
    parseLit_cons_ne (fun he => h he.symm)]
  rfl

theorem matchInvalidRange_head_ne {c : Char} (h : c ≠ '.') (l : Chars) :
    matchInvalidRange (c :: l) = none := by
  unfold matchInvalidRange
  rw [show (".getRange(".toList : Chars) = '.' :: "getRange(".toList from rfl,
    parseLit_cons_ne (fun he => h he.symm)]
  rfl

theorem p1SiteAt_values_head_ne {c : Char} (h : c ≠ '.') (l : Chars) :
    p1SiteAt ".values".toList (c :: l) = none := by
  unfold p1SiteAt
  rw [show (".values".toList : Chars) = '.' :: "values".toList from rfl,
    parseLit_cons_ne (fun he => h he.symm)]
  rfl

/-! Scanner vacuity over the two line shapes: every start position of
`c6Code content` (resp. `c6Fixed content`) fails for the matchers below. -/

theorem c6_none_async (content : Chars)
    (hcs : ∀ c ∈ content, c.isDigit = true ∨ c = ',' ∨ c = ' ') :
    ∀ k, matchAsyncFunctionDecl ((c6Code content).drop k) = none :=
  forall_drop_append (fun s => matchAsyncFunctionDecl s = none) "cell.values = [".toList
    (content ++ "]".toList)
    (by
      intro k hk
      rw [show (("cell.values = [".toList : Chars)).length = 15 from rfl] at hk
      interval_cases k <;> rfl)
    (forall_drop_append_of_head (fun s => matchAsyncFunctionDecl s = none) content "]".toList
      (fun c hc l => matchAsyncFunctionDecl_head_ne (charset_ne (hcs c hc) (by decide)) l)
      (forall_drop_single (fun s => matchAsyncFunctionDecl s = none) ']' rfl rfl))

theorem c6_none_formulas1 (content : Chars)
    (hcs : ∀ c ∈ content, c.isDigit = true ∨ c = ',' ∨ c = ' ') :
    ∀ k, matchFormulasOneLevel ((c6Code content).drop k) = none :=
  forall_drop_append (fun s => matchFormulasOneLevel s = none) "cell.values = [".toList
    (content ++ "]".toList)
    (by
      intro k hk
      rw [show (("cell.values = [".toList : Chars)).length = 15 from rfl] at hk
      interval_cases k <;> rfl)
    (forall_drop_append_of_head (fun s => matchFormulasOneLevel s = none) content "]".toList
      (fun c hc l => matchFormulasOneLevel_head_ne (charset_ne (hcs c hc) (by decide)) l)
      (forall_drop_single (fun s => matchFormulasOneLevel s = none) ']' rfl rfl))

theorem c6_none_valstr (content : Chars)
    (hcs : ∀ c ∈ content, c.isDigit = true ∨ c = ',' ∨ c = ' ') :
    ∀ k, matchValuesStringLit ((c6Code content).drop k) = none :=
  forall_drop_append (fun s => matchValuesStringLit s = none) "cell.values = [".toList
    (content ++ "]".toList)
    (by
      intro k hk
      rw [show (("cell.values = [".toList : Chars)).length = 15 from rfl] at hk
      interval_cases k <;> rfl)
    (forall_drop_append_of_head (fun s => matchValuesStringLit s = none) content "]".toList
      (fun c hc l => matchValuesStringLit_head_ne (charset_ne (hcs c hc) (by decide)) l)
      (forall_drop_single (fun s => matchValuesStringLit s = none) ']' rfl rfl))

theorem c6_none_formstr (content : Chars)
    (hcs : ∀ c ∈ content, c.isDigit = true ∨ c = ',' ∨ c = ' ') :
    ∀ k, matchFormulasStringLit ((c6Code content).drop k) = none :=
  forall_drop_append (fun s => matchFormulasStringLit s = none) "cell.values = [".toList
    (content ++ "]".toList)
    (by
      intro k hk
      rw [show (("cell.values = [".toList : Chars)).length = 15 from rfl] at hk
      interval_cases k <;> rfl)
    (forall_drop_append_of_head (fun s => matchFormulasStringLit s = none) content "]".toList
      (fun c hc l => matchFormulasStringLit_head_ne (charset_ne (hcs c hc) (by decide)) l)
      (forall_drop_single (fun s => matchFormulasStringLit s = none) ']' rfl rfl))

theorem c6_none_rangevals (content : Chars)
    (hcs : ∀ c ∈ content, c.isDigit = true ∨ c = ',' ∨ c = ' ') :
    ∀ k, matchRangeValues ((c6Code content).drop k) = none :=
  forall_drop_append (fun s => matchRangeValues s = none) "cell.values = [".toList
    (content ++ "]".toList)
    (by
      intro k hk
      rw [show (("cell.values = [".toList : Chars)).length = 15 from rfl] at hk
      interval_cases k <;> rfl)
    (forall_drop_append_of_head (fun s => matchRangeValues s = none) content "]".toList
      (fun c hc l => matchRangeValues_head_ne (charset_ne (hcs c hc) (by decide)) l)
      (forall_drop_single (fun s => matchRangeValues s = none) ']' rfl rfl))

theorem c6F_none_async (content : Chars)
    (hcs : ∀ c ∈ content, c.isDigit = true ∨ c = ',' ∨ c = ' ') :
    ∀ k, matchAsyncFunctionDecl ((c6Fixed content).drop k) = none :=
  forall_drop_append (fun s => matchAsyncFunctionDecl s = none) "cell.values = [[".toList
    (content ++ "]]".toList)
    (by
      intro k hk
      rw [show (("cell.values = [[".toList : Chars)).length = 16 from rfl] at hk
      interval_cases k <;> rfl)
    (forall_drop_append_of_head (fun s => matchAsyncFunctionDecl s = none) content "]]".toList
      (fun c hc l => matchAsyncFunctionDecl_head_ne (charset_ne (hcs c hc) (by decide)) l)
      (forall_drop_two (fun s => matchAsyncFunctionDecl s = none) ']' ']' rfl rfl rfl))

theorem c6F_none_values1 (content : Chars)
    (hcs : ∀ c ∈ content, c.isDigit = true ∨ c = ',' ∨ c = ' ') :
    ∀ k, matchValuesOneLevel ((c6Fixed content).drop k) = none :=
  forall_drop_append (fun s => matchValuesOneLevel s = none) "cell.values = [[".toList
    (content ++ "]]".toList)
    (by
      intro k hk
      rw [show (("cell.values = [[".toList : Chars)).length = 16 from rfl] at hk
      interval_cases k <;> rfl)
    (forall_drop_append_of_head (fun s => matchValuesOneLevel s = none) content "]]".toList
      (fun c hc l => matchValuesOneLevel_head_ne (charset_ne (hcs c hc) (by decide)) l)
      (forall_drop_two (fun s => matchValuesOneLevel s = none) ']' ']' rfl rfl rfl))

theorem c6F_none_formulas1 (content : Chars)
    (hcs : ∀ c ∈ content, c.isDigit = true ∨ c = ',' ∨ c = ' ') :
    ∀ k, matchFormulasOneLevel ((c6Fixed content).drop k) = none :=
  forall_drop_append (fun s => matchFormulasOneLevel s = none) "cell.values = [[".toList
    (content ++ "]]".toList)
    (by
      intro k hk
      rw [show (("cell.values = [[".toList : Chars)).length = 16 from rfl] at hk
      interval_cases k <;> rfl)
    (forall_drop_append_of_head (fun s => matchFormulasOneLevel s = none) content "]]".toList
      (fun c hc l => matchFormulasOneLevel_head_ne (charset_ne (hcs c hc) (by decide)) l)
      (forall_drop_two (fun s => matchFormulasOneLevel s = none) ']' ']' rfl rfl rfl))

theorem c6F_none_valstr (content : Chars)
    (hcs : ∀ c ∈ content, c.isDigit = true ∨ c = ',' ∨ c = ' ') :
    ∀ k, matchValuesStringLit ((c6Fixed content).drop k) = none :=
  forall_drop_append (fun s => matchValuesStringLit s = none) "cell.values = [[".toList
    (content ++ "]]".toList)
    (by
      intro k hk
      rw [show (("cell.values = [[".toList : Chars)).length = 16 from rfl] at hk
      interval_cases k <;> rfl)
    (forall_drop_append_of_head (fun s => matchValuesStringLit s = none) content "]]".toList
      (fun c hc l => matchValuesStringLit_head_ne (charset_ne (hcs c hc) (by decide)) l)
      (forall_drop_two (fun s => matchValuesStringLit s = none) ']' ']' rfl rfl rfl))

theorem c6F_none_formstr (content : Chars)
    (hcs : ∀ c ∈ content, c.isDigit = true ∨ c = ',' ∨ c = ' ') :
    ∀ k, matchFormulasStringLit ((c6Fixed content).drop k) = none :=
  forall_drop_append (fun s => matchFormulasStringLit s = none) "cell.values = [[".toList
    (content ++ "]]".toList)
    (by
      intro k hk
      rw [show (("cell.values = [[".toList : Chars)).length = 16 from rfl] at hk
      interval_cases k <;> rfl)
    (forall_drop_append_of_head (fun s => matchFormulasStringLit s = none) content "]]".toList
      (fun c hc l => matchFormulasStringLit_head_ne (charset_ne (hcs c hc) (by decide)) l)
      (forall_drop_two (fun s => matchFormulasStringLit s = none) ']' ']' rfl rfl rfl))

theorem c6F_none_rangevals (content : Chars)
    (hcs : ∀ c ∈ content, c.isDigit = true ∨ c = ',' ∨ c = ' ') :
    ∀ k, matchRangeValues ((c6Fixed content).drop k) = none :=
  forall_drop_append (fun s => matchRangeValues s = none) "cell.values = [[".toList
    (content ++ "]]".toList)
    (by
      intro k hk
      rw [show (("cell.values = [[".toList : Chars)).length = 16 from rfl] at hk
      interval_cases k <;> rfl)
    (forall_drop_append_of_head (fun s => matchRangeValues s = none) content "]]".toList
      (fun c hc l => matchRangeValues_head_ne (charset_ne (hcs c hc) (by decide)) l)
      (forall_drop_two (fun s => matchRangeValues s = none) ']' ']' rfl rfl rfl))

theorem c6F_none_function (content : Chars)
    (hcs : ∀ c ∈ content, c.isDigit = true ∨ c = ',' ∨ c = ' ') :
    ∀ k, matchFunctionDecl ((c6Fixed content).drop k) = none :=
  forall_drop_append (fun s => matchFunctionDecl s = none) "cell.values = [[".toList
    (content ++ "]]".toList)
    (by
      intro k hk
      rw [show (("cell.values = [[".toList : Chars)).length = 16 from rfl] at hk
      interval_cases k <;> rfl)
    (forall_drop_append_of_head (fun s => matchFunctionDecl s = none) content "]]".toList
      (fun c hc l => matchFunctionDecl_head_ne (charset_ne (hcs c hc) (by decide)) l)
      (forall_drop_two (fun s => matchFunctionDecl s = none) ']' ']' rfl rfl rfl))

theorem c6F_none_const (content : Chars)
    (hcs : ∀ c ∈ content, c.isDigit = true ∨ c = ',' ∨ c = ' ') :
    ∀ k, matchConstAsyncDecl ((c6Fixed content).drop k) = none :=
  forall_drop_append (fun s => matchConstAsyncDecl s = none) "cell.values = [[".toList
    (content ++ "]]".toList)
    (by
      intro k hk
      rw [show (("cell.values = [[".toList : Chars)).length = 16 from rfl] at hk
      interval_cases k <;> rfl)
    (forall_drop_append_of_head (fun s => matchConstAsyncDecl s = none) content "]]".toList
      (fun c hc l => matchConstAsyncDecl_head_ne (charset_ne (hcs c hc) (by decide)) l)
      (forall_drop_two (fun s => matchConstAsyncDecl s = none) ']' ']' rfl rfl rfl))

theorem c6F_none_let (content : Chars)
    (hcs : ∀ c ∈ content, c.isDigit = true ∨ c = ',' ∨ c = ' ') :
    ∀ k, matchLetAsyncDecl ((c6Fixed content).drop k) = none :=
  forall_drop_append (fun s => matchLetAsyncDecl s = none) "cell.values = [[".toList
    (content ++ "]]".toList)
    (by
      intro k hk
      rw [show (("cell.values = [[".toList : Chars)).length = 16 from rfl] at hk
      interval_cases k <;> rfl)
    (forall_drop_append_of_head (fun s => matchLetAsyncDecl s = none) content "]]".toList
      (fun c hc l => matchLetAsyncDecl_head_ne (charset_ne (hcs c hc) (by decide)) l)
      (forall_drop_two (fun s => matchLetAsyncDecl s = none) ']' ']' rfl rfl rfl))

theorem c6F_none_var (content : Chars)
    (hcs : ∀ c ∈ content, c.isDigit = true ∨ c = ',' ∨ c = ' ') :
    ∀ k, matchVarAsyncDecl ((c6Fixed content).drop k) = none :=
  forall_drop_append (fun s => matchVarAsyncDecl s = none) "cell.values = [[".toList
    (content ++ "]]".toList)
    (by
      intro k hk
      rw [show (("cell.values = [[".toList : Chars)).length = 16 from rfl] at hk
      interval_cases k <;> rfl)
    (forall_drop_append_of_head (fun s => matchVarAsyncDecl s = none) content "]]".toList
      (fun c hc l => matchVarAsyncDecl_head_ne (charset_ne (hcs c hc) (by decide)) l)
      (forall_drop_two (fun s => matchVarAsyncDecl s = none) ']' ']' rfl rfl rfl))

theorem c6F_none_main (content : Chars)
    (hcs : ∀ c ∈ content, c.isDigit = true ∨ c = ',' ∨ c = ' ') :
    ∀ k, matchAsyncMainDecl ((c6Fixed content).drop k) = none :=
  forall_drop_append (fun s => matchAsyncMainDecl s = none) "cell.values = [[".toList
    (content ++ "]]".toList)
    (by
      intro k hk
      rw [show (("cell.values = [[".toList : Chars)).length = 16 from rfl] at hk
      interval_cases k <;> rfl)
    (forall_drop_append_of_head (fun s => matchAsyncMainDecl s = none) content "]]".toList
      (fun c hc l => matchAsyncMainDecl_head_ne (charset_ne (hcs c hc) (by decide)) l)
      (forall_drop_two (fun s => matchAsyncMainDecl s = none) ']' ']' rfl rfl rfl))

theorem c6F_none_sheet (content : Chars)
    (hcs : ∀ c ∈ content, c.isDigit = true ∨ c = ',' ∨ c = ' ') :
    ∀ k, matchInvalidSheet ((c6Fixed content).drop k) = none :=
  forall_drop_append (fun s => matchInvalidSheet s = none) "cell.values = [[".toList
    (content ++ "]]".toList)
    (by
      intro k hk
      rw [show (("cell.values = [[".toList : Chars)).length = 16 from rfl] at hk
      interval_cases k <;> rfl)
    (forall_drop_append_of_head (fun s => matchInvalidSheet s = none) content "]]".toList
      (fun c hc l => matchInvalidSheet_head_ne (charset_ne (hcs c hc) (by decide)) l)
      (forall_drop_two (fun s => matchInvalidSheet s = none) ']' ']' rfl rfl rfl))

theorem c6F_none_large (content : Chars)
    (hcs : ∀ c ∈ content, c.isDigit = true ∨ c = ',' ∨ c = ' ') :
    ∀ k, matchLargeRange ((c6Fixed content).drop k) = none :=
  forall_drop_append (fun s => matchLargeRange s = none) "cell.values = [[".toList
    (content ++ "]]".toList)
    (by
      intro k hk
      rw [show (("cell.values = [[".toList : Chars)).length = 16 from rfl] at hk
      interval_cases k <;> rfl)
    (forall_drop_append_of_head (fun s => matchLargeRange s = none) content "]]".toList
      (fun c hc l => matchLargeRange_head_ne (charset_ne (hcs c hc) (by decide)) l)
      (forall_drop_two (fun s => matchLargeRange s = none) ']' ']' rfl rfl rfl))

theorem c6F_none_circular (content : Chars)
    (hcs : ∀ c ∈ content, c.isDigit = true ∨ c = ',' ∨ c = ' ') :
    ∀ k, matchCircularRef ((c6Fixed content).drop k) = none :=
  forall_drop_append (fun s => matchCircularRef s = none) "cell.values = [[".toList
    (content ++ "]]".toList)
    (by
      intro k hk
      rw [show (("cell.values = [[".toList : Chars)).length = 16 from rfl] at hk
      interval_cases k <;> rfl)
    (forall_drop_append_of_head (fun s => matchCircularRef s = none) content "]]".toList
      (fun c hc l => matchCircularRef_head_ne (charset_ne (hcs c hc) (by decide)) l)
      (forall_drop_two (fun s => matchCircularRef s = none) ']' ']' rfl rfl rfl))

theorem c6F_none_invrange (content : Chars)
    (hcs : ∀ c ∈ content, c.isDigit = true ∨ c = ',' ∨ c = ' ') :
    ∀ k, matchInvalidRange ((c6Fixed content).drop k) = none :=
  forall_drop_append (fun s => matchInvalidRange s = none) "cell.values = [[".toList
    (content ++ "]]".toList)
    (by
      intro k hk
      rw [show (("cell.values = [[".toList : Chars)).length = 16 from rfl] at hk
      interval_cases k <;> rfl)
    (forall_drop_append_of_head (fun s => matchInvalidRange s = none) content "]]".toList
      (fun c hc l => matchInvalidRange_head_ne (charset_ne (hcs c hc) (by decide)) l)
      (forall_drop_two (fun s => matchInvalidRange s = none) ']' ']' rfl rfl rfl))


/-! Membership and shape facts about the two lines. -/

theorem c6_not_mem (content : Chars)
    (hcs : ∀ c ∈ content, c.isDigit = true ∨ c = ',' ∨ c = ' ')
    {x : Char} (hx1 : x ∉ ("cell.values = [".toList : Chars))
    (hx2 : ¬ (x.isDigit = true ∨ x = ',' ∨ x = ' '))
    (hx3 : x ∉ ("]".toList : Chars)) : x ∉ c6Code content := by
  intro hmem
  have hm2 : x ∈ "cell.values = [".toList ++ (content ++ "]".toList) := hmem
  rcases List.mem_append.mp hm2 with h | h
  · exact hx1 h
  rcases List.mem_append.mp h with h | h
  · exact hx2 (hcs x h)
  · exact hx3 h

theorem c6F_not_mem (content : Chars)
    (hcs : ∀ c ∈ content, c.isDigit = true ∨ c = ',' ∨ c = ' ')
    {x : Char} (hx1 : x ∉ ("cell.values = [[".toList : Chars))
    (hx2 : ¬ (x.isDigit = true ∨ x = ',' ∨ x = ' '))
    (hx3 : x ∉ ("]]".toList : Chars)) : x ∉ c6Fixed content := by
  intro hmem
  have hm2 : x ∈ "cell.values = [[".toList ++ (content ++ "]]".toList) := hmem
  rcases List.mem_append.mp hm2 with h | h
  · exact hx1 h
  rcases List.mem_append.mp h with h | h
  · exact hx2 (hcs x h)
  · exact hx3 h

theorem c6_no_newline (content : Chars)
    (hcs : ∀ c ∈ content, c.isDigit = true ∨ c = ',' ∨ c = ' ') :
    ∀ c ∈ c6Code content, c ≠ '\n' := by
  intro c hc
  have hc2 : c ∈ "cell.values = [".toList ++ (content ++ "]".toList) := hc
  rcases List.mem_append.mp hc2 with h | h
  · intro he; subst he; revert h; decide
  rcases List.mem_append.mp h with h | h
  · exact charset_ne (hcs c h) (by decide)
  · intro he; subst he; revert h; decide

theorem c6F_no_newline (content : Chars)
    (hcs : ∀ c ∈ content, c.isDigit = true ∨ c = ',' ∨ c = ' ') :
    ∀ c ∈ c6Fixed content, c ≠ '\n' := by
  intro c hc
  have hc2 : c ∈ "cell.values = [[".toList ++ (content ++ "]]".toList) := hc
  rcases List.mem_append.mp hc2 with h | h
  · intro he; subst he; revert h; decide
  rcases List.mem_append.mp h with h | h
  · exact charset_ne (hcs c h) (by decide)
  · intro he; subst he; revert h; decide

theorem c6Code_drop15 (content : Chars) (j : Nat) :
    (c6Code content).drop (15 + j) = (content ++ "]".toList).drop j := by
  have h15 : 15 + j = (("cell.values = [".toList : Chars)).length + j := rfl
  rw [show c6Code content
      = "cell.values = [".toList ++ (content ++ "]".toList) from rfl, h15, List.drop_append]

/-- The mixed-type scanner fails everywhere on the corrected line: at the
`.values`-site the lazy keyword search runs off the end of the line. -/
theorem c6F_none_mixed (content : Chars)
    (hcs : ∀ c ∈ content, c.isDigit = true ∨ c = ',' ∨ c = ' ') :
    ∀ k, matchMixedType ((c6Fixed content).drop k) = none := by
  have hkw : lazyFindKw (content ++ "]]".toList) = none := by
    refine lazyFindKw_eq_none _ ?_
    intro c hc
    rcases List.mem_append.mp hc with h | h
    · have hd := hcs c h
      exact ⟨charset_ne hd (by decide), charset_ne hd (by decide), charset_ne hd (by decide),
        charset_ne hd (by decide), charset_ne hd (by decide)⟩
    · have h2 : c ∈ ([']', ']'] : Chars) := h
      fin_cases h2 <;> decide
  have hmt4 : matchMixedType (".values = [[".toList ++ (content ++ "]]".toList)) = none := by
    show (lazyFindKw (content ++ "]]".toList)).bind _ = none
    rw [hkw]
    rfl
  exact forall_drop_append (fun s => matchMixedType s = none) "cell.values = [[".toList
    (content ++ "]]".toList)
    (by
      intro k hk
      rw [show (("cell.values = [[".toList : Chars)).length = 16 from rfl] at hk
      interval_cases k <;> first | rfl | exact hmt4)
    (forall_drop_append_of_head (fun s => matchMixedType s = none) content "]]".toList
      (fun c hc l => matchMixedType_head_ne (charset_ne (hcs c hc) (by decide)) l)
      (forall_drop_two (fun s => matchMixedType s = none) ']' ']' rfl rfl rfl))

/-! The one genuine match: the one-level scanner and Pattern 1 site parser at
position 4 of `c6Code content`. -/

/-- At a `.values = [`-site whose tail does not begin with another `[`, the
one-level matcher fires with match length 11. -/
theorem matchValuesOneLevel_hit (tail : Chars) (h : ¬ tail.head? = some '[') :
    matchValuesOneLevel (".values = [".toList ++ tail) = some ((), 11) := by
  show (if tail.head? = some '[' then none
    else some ((), (".values = [".toList ++ tail).length - tail.length)) = some ((), 11)
  rw [if_neg h, List.length_append,
    show ((".values = [".toList : Chars)).length = 11 from rfl, Nat.add_sub_cancel]

/-- At a `.values = [`-site whose bracket-free content is followed by `]`, the
Pattern-1 site parser returns the `\s*=\s*` text, the content group and an
empty suffix. -/
theorem p1SiteAt_values_hit (content : Chars)
    (hbr : ∀ c ∈ content, (c ≠ '[' && c ≠ ']') = true) :
    p1SiteAt ".values".toList (".values = [".toList ++ (content ++ "]".toList)) =
      some (" = ".toList, content, []) := by
  have hdw : (content ++ "]".toList).dropWhile (fun c => c ≠ '[' && c ≠ ']') = [']'] := by
    rw [dropWhile_append_of_all "]".toList hbr]
    rfl
  have htw : (content ++ "]".toList).takeWhile (fun c => c ≠ '[' && c ≠ ']') = content := by
    rw [takeWhile_append_of_all "]".toList hbr,
      show ("]".toList : Chars).takeWhile (fun c => c ≠ '[' && c ≠ ']') = [] from rfl,
      List.append_nil]
  show ((parseCh (· = ']')
      ((content ++ "]".toList).dropWhile (fun c => c ≠ '[' && c ≠ ']'))).bind fun p4 =>
      some ((" = ".toList : Chars),
        (content ++ "]".toList).takeWhile (fun c => c ≠ '[' && c ≠ ']'), p4.2))
    = some (" = ".toList, content, [])
  rw [hdw]
  simp only [htw]
  rfl

theorem c6_scanValuesOne (content : Chars)
    (hcs : ∀ c ∈ content, c.isDigit = true ∨ c = ',' ∨ c = ' ') :
    scanAll matchValuesOneLevel (c6Code content) = [((), 1)] := by
  have hnl := c6_no_newline content hcs
  have hhead : ¬ (content ++ ("]".toList : Chars)).head? = some '[' := by
    cases content with
    | nil => decide
    | cons c rest =>
      simp only [List.cons_append, List.head?_cons]
      intro he
      exact charset_ne (hcs c (List.mem_cons_self _ _)) (by decide) (Option.some.inj he)
  have hp : matchValuesOneLevel ((c6Code content).drop 4) = some ((), 11) :=
    matchValuesOneLevel_hit (content ++ "]".toList) hhead
  have hb : ∀ k, k < 4 → matchValuesOneLevel ((c6Code content).drop k) = none := by
    intro k hk
    interval_cases k <;> rfl
  have ha : ∀ k, 4 + 11 ≤ k → matchValuesOneLevel ((c6Code content).drop k) = none := by
    intro k hk
    obtain ⟨j, rfl⟩ : ∃ j, k = 15 + j := ⟨k - 15, by omega⟩
    rw [c6Code_drop15 content j]
    exact forall_drop_append_of_head (fun s => matchValuesOneLevel s = none) content "]".toList
      (fun c hc l => matchValuesOneLevel_head_ne (charset_ne (hcs c hc) (by decide)) l)
      (forall_drop_single (fun s => matchValuesOneLevel s = none) ']' rfl rfl) j
  exact scanGo_single (c6Code content) 4 () 11 1 hnl hb hp (by omega) ha

theorem c6_lastSite (content : Chars)
    (hcs : ∀ c ∈ content, c.isDigit = true ∨ c = ',' ∨ c = ' ') :
    lastSiteGo (p1SiteAt ".values".toList) 0 (c6Code content) =
      some (4, (" = ".toList, content, [])) := by
  have hbr : ∀ c ∈ content, (c ≠ '[' && c ≠ ']') = true := by
    intro c hc
    have h1 : c ≠ '[' := charset_ne (hcs c hc) (by decide)
    have h2 : c ≠ ']' := charset_ne (hcs c hc) (by decide)
    rw [decide_eq_true h1, decide_eq_true h2]
    rfl
  have hp : p1SiteAt ".values".toList ((c6Code content).drop 4) =
      some (" = ".toList, content, []) := p1SiteAt_values_hit content hbr
  have hafter : ∀ k, 4 < k → p1SiteAt ".values".toList ((c6Code content).drop k) = none := by
    intro k hk
    by_cases h15 : k < 15
    · interval_cases k <;> rfl
    · obtain ⟨j, rfl⟩ : ∃ j, k = 15 + j := ⟨k - 15, by omega⟩
      rw [c6Code_drop15 content j]
      exact forall_drop_append_of_head
        (fun s => p1SiteAt ".values".toList s = none) content "]".toList
        (fun c hc l => p1SiteAt_values_head_ne (charset_ne (hcs c hc) (by decide)) l)
        (forall_drop_single (fun s => p1SiteAt ".values".toList s = none) ']' rfl rfl) j
  have hlen : 4 < (c6Code content).length := by
    rw [show c6Code content = "cell.values = [".toList ++ (content ++ "]".toList) from rfl,
      List.length_append, show (("cell.values = [".toList : Chars)).length = 15 from rfl]
    omega
  have hmain := lastSiteGo_eq (c6Code content) 4 0 (" = ".toList, content, []) hlen hp hafter
  simpa using hmain

theorem c6_wrapRewrite (content : Chars)
    (hcs : ∀ c ∈ content, c.isDigit = true ∨ c = ',' ∨ c = ' ') :
    wrapRewrite ".values".toList (c6Code content) = some (c6Fixed content) := by
  have hguard : ¬ (trimJs content).head? = some '[' := by
    cases htc : trimJs content with
    | nil => simp
    | cons c rest =>
      simp only [List.head?_cons]
      intro he
      have hcm : c ∈ trimJs content := by rw [htc]; exact List.mem_cons_self _ _
      exact charset_ne (hcs c (mem_trimJs hcm)) (by decide) (Option.some.inj he)
  unfold wrapRewrite
  rw [c6_lastSite content hcs]
  show (if (trimJs content).head? = some '[' then none
    else some ((c6Code content).take 4 ++ ".values".toList ++ " = ".toList ++ "[[".toList
      ++ content ++ "]]".toList ++ ([] : Chars))) = some (c6Fixed content)
  rw [if_neg hguard]
  simp only [List.append_assoc, List.append_nil]
  rw [show (c6Code content).take 4 = "cell".toList from rfl]
  rfl

/-! Evaluation of the corrector on `c6Code content`. -/

theorem c6_correctLine (content : Chars)
    (hcs : ∀ c ∈ content, c.isDigit = true ∨ c = ',' ∨ c = ' ') :
    correctLine (c6Code content) = c6Fixed content := by
  have hgv : containsSub ['.', 'v', 'a', 'l', 'u', 'e', 's'] (c6Code content) = true :=
    containsSub_complete 4 (by rfl)
  have hge : containsSub ['='] (c6Code content) = true :=
    containsSub_complete 12 (by rfl)
  have hgb : containsSub ['['] (c6Code content) = true := by
    refine containsSub_complete 14 ?_
    show (((['['] : Chars))).isPrefixOf ('[' :: (content ++ "]".toList)) = true
    show ('[' == '[' && (([] : Chars)).isPrefixOf (content ++ "]".toList)) = true
    rw [isPrefixOf_nil_left]
    rfl
  have hfm : 'f' ∉ c6Code content :=
    c6_not_mem content hcs (by decide) (by decide) (by decide)
  have hqm : '"' ∉ c6Code content :=
    c6_not_mem content hcs (by decide) (by decide) (by decide)
  have hgf : containsSub ['.', 'f', 'o', 'r', 'm', 'u', 'l', 'a', 's'] (c6Code content)
      = false :=
    containsSub_eq_false
      (show 'f' ∈ (['.', 'f', 'o', 'r', 'm', 'u', 'l', 'a', 's'] : Chars) from by decide) hfm
  have hgq : containsSub ['"'] (c6Code content) = false :=
    containsSub_eq_false (show '"' ∈ ((['"'] : Chars)) from by decide) hqm
  have hwrap : wrapRewrite ['.', 'v', 'a', 'l', 'u', 'e', 's'] (c6Code content)
      = some (c6Fixed content) := c6_wrapRewrite content hcs
  unfold correctLine
  simp [hgv, hge, hgb, hgf, hgq, hwrap]

theorem c6_decls (content : Chars)
    (hcs : ∀ c ∈ content, c.isDigit = true ∨ c = ',' ∨ c = ' ') :
    declaredFunctionsOf (c6Fixed content) = [] := by
  have hs1 : scanAll matchAsyncFunctionDecl (c6Fixed content) = [] :=
    scanGo_eq_nil_of_none_from _ 0 1 (fun k _ => c6F_none_async content hcs k)
  have hs2 : scanAll matchFunctionDecl (c6Fixed content) = [] :=
    scanGo_eq_nil_of_none_from _ 0 1 (fun k _ => c6F_none_function content hcs k)
  have hs3 : scanAll matchConstAsyncDecl (c6Fixed content) = [] :=
    scanGo_eq_nil_of_none_from _ 0 1 (fun k _ => c6F_none_const content hcs k)
  have hs4 : scanAll matchLetAsyncDecl (c6Fixed content) = [] :=
    scanGo_eq_nil_of_none_from _ 0 1 (fun k _ => c6F_none_let content hcs k)
  have hs5 : scanAll matchVarAsyncDecl (c6Fixed content) = [] :=
    scanGo_eq_nil_of_none_from _ 0 1 (fun k _ => c6F_none_var content hcs k)
  have hs6 : scanAll matchAsyncMainDecl (c6Fixed content) = [] :=
    scanGo_eq_nil_of_none_from _ 0 1 (fun k _ => c6F_none_main content hcs k)
  unfold declaredFunctionsOf declPatternMatchers
  simp only [List.foldl_cons, List.foldl_nil]
  rw [hs1, hs2, hs3, hs4, hs5, hs6]
  rfl

theorem c6_applyEdge (content : Chars)
    (hcs : ∀ c ∈ content, c.isDigit = true ∨ c = ',' ∨ c = ' ') :
    applyEdgeCaseCorrections (c6Fixed content) = (c6Fixed content, 0) := by
  have h1 : replaceCntAll matchInvalidSheet (c6Fixed content) = (c6Fixed content, 0) :=
    replaceCntAll_id _ (c6F_none_sheet content hcs)
  have h2 : replaceCntAll matchLargeRange (c6Fixed content) = (c6Fixed content, 0) :=
    replaceCntAll_id _ (c6F_none_large content hcs)
  have h3 : replaceCntAll matchCircularRef (c6Fixed content) = (c6Fixed content, 0) :=
    replaceCntAll_id _ (c6F_none_circular content hcs)
  have h4 : replaceCntAll matchMixedType (c6Fixed content) = (c6Fixed content, 0) :=
    replaceCntAll_id _ (c6F_none_mixed content hcs)
  have h7 : replaceCntAll matchInvalidRange (c6Fixed content) = (c6Fixed content, 0) :=
    replaceCntAll_id _ (c6F_none_invrange content hcs)
  have hE : 'E' ∉ c6Fixed content :=
    c6F_not_mem content hcs (by decide) (by decide) (by decide)
  have hw : 'w' ∉ c6Fixed content :=
    c6F_not_mem content hcs (by decide) (by decide) (by decide)
  have hg : 'g' ∉ c6Fixed content :=
    c6F_not_mem content hcs (by decide) (by decide) (by decide)
  have h5 : edgeRule5 (c6Fixed content) (c6Fixed content) = (c6Fixed content, 0) := by
    unfold edgeRule5
    rw [containsSub_eq_false (show 'E' ∈ "Excel.run".toList from by decide) hE]
    rfl
  have h6 : edgeRule6 (c6Fixed content) (c6Fixed content) = (c6Fixed content, 0) := by
    unfold edgeRule6
    rw [splitNl_eq_single _ (c6F_no_newline content hcs)]
    rfl
  have hdet : officeScriptsDetected (c6Fixed content) = false := by
    unfold officeScriptsDetected
    rw [containsSub_eq_false (show 'E' ∈ "ExcelScript.Workbook".toList from by decide) hE,
      containsSub_eq_false (show 'w' ∈ "workbook.getWorksheet(".toList from by decide) hw,
      containsSub_eq_false (show 'w' ∈ "async function main(workbook".toList from by decide) hw,
      containsSub_eq_false (show 'E' ∈ "ExcelScript.".toList from by decide) hE,
      containsSub_eq_false (show 'g' ∈ ".getWorksheet(".toList from by decide) hg,
      containsSub_eq_false (show 'g' ∈ ".getTables()".toList from by decide) hg,
      containsSub_eq_false (show 'g' ∈ ".getCharts()".toList from by decide) hg]
    rfl
  have h8 : fixOfficeScriptsApiPattern (c6Fixed content) = (c6Fixed content, 0) := by
    unfold fixOfficeScriptsApiPattern
    rw [hdet]
    rfl
  unfold applyEdgeCaseCorrections
  simp only [h1, h2, h3, h4, h5, h6, h7, h8, Nat.add_zero, Nat.zero_add]

theorem c6_autoCorrect (content : Chars)
    (hcs : ∀ c ∈ content, c.isDigit = true ∨ c = ',' ∨ c = ' ') :
    autoCorrectArrayDimensions (c6Code content) = c6Fixed content := by
  have hsplit : splitNl (c6Code content) = [c6Code content] :=
    splitNl_eq_single _ (c6_no_newline content hcs)
  have hcl := c6_correctLine content hcs
  have hdecl := c6_decls content hcs
  have hec := c6_applyEdge content hcs
  unfold autoCorrectArrayDimensions
  simp only [hsplit, List.map_cons, List.map_nil, hcl,
    show joinNl [c6Fixed content] = c6Fixed content from rfl, hdecl, List.foldl_nil, hec]
  rfl

/-! The two validation results. -/

theorem c6_code_one_issue (content : Chars)
    (hcs : ∀ c ∈ content, c.isDigit = true ∨ c = ',' ∨ c = ' ') :
    (validateGeneratedCode (c6Code content)).fixableIssues = [VIssue.values1D 1] := by
  have hsA : scanAll matchAsyncFunctionDecl (c6Code content) = [] :=
    scanGo_eq_nil_of_none_from _ 0 1 (fun k _ => c6_none_async content hcs k)
  have hsV := c6_scanValuesOne content hcs
  have hsF : scanAll matchFormulasOneLevel (c6Code content) = [] :=
    scanGo_eq_nil_of_none_from _ 0 1 (fun k _ => c6_none_formulas1 content hcs k)
  have hsVS : scanAll matchValuesStringLit (c6Code content) = [] :=
    scanGo_eq_nil_of_none_from _ 0 1 (fun k _ => c6_none_valstr content hcs k)
  have hsFS : scanAll matchFormulasStringLit (c6Code content) = [] :=
    scanGo_eq_nil_of_none_from _ 0 1 (fun k _ => c6_none_formstr content hcs k)
  have hsRV : scanAll matchRangeValues (c6Code content) = [] :=
    scanGo_eq_nil_of_none_from _ 0 1 (fun k _ => c6_none_rangevals content hcs k)
  show uncalledFixables (c6Code content) ++ arrayDimIssues (c6Code content)
    ++ rangeOpIssues (c6Code content) = [VIssue.values1D 1]
  unfold uncalledFixables arrayDimIssues rangeOpIssues
  rw [hsA, hsV, hsF, hsVS, hsFS, hsRV]
  rfl

theorem c6_fixed_valid (content : Chars)
    (hcs : ∀ c ∈ content, c.isDigit = true ∨ c = ',' ∨ c = ' ') :
    (validateGeneratedCode (c6Fixed content)).fixableIssues = [] := by
  have hsA : scanAll matchAsyncFunctionDecl (c6Fixed content) = [] :=
    scanGo_eq_nil_of_none_from _ 0 1 (fun k _ => c6F_none_async content hcs k)
  have hsV : scanAll matchValuesOneLevel (c6Fixed content) = [] :=
    scanGo_eq_nil_of_none_from _ 0 1 (fun k _ => c6F_none_values1 content hcs k)
  have hsF : scanAll matchFormulasOneLevel (c6Fixed content) = [] :=
    scanGo_eq_nil_of_none_from _ 0 1 (fun k _ => c6F_none_formulas1 content hcs k)
  have hsVS : scanAll matchValuesStringLit (c6Fixed content) = [] :=
    scanGo_eq_nil_of_none_from _ 0 1 (fun k _ => c6F_none_valstr content hcs k)
  have hsFS : scanAll matchFormulasStringLit (c6Fixed content) = [] :=
    scanGo_eq_nil_of_none_from _ 0 1 (fun k _ => c6F_none_formstr content hcs k)
  have hsRV : scanAll matchRangeValues (c6Fixed content) = [] :=
    scanGo_eq_nil_of_none_from _ 0 1 (fun k _ => c6F_none_rangevals content hcs k)
  show uncalledFixables (c6Fixed content) ++ arrayDimIssues (c6Fixed content)
    ++ rangeOpIssues (c6Fixed content) = []
  unfold uncalledFixables arrayDimIssues rangeOpIssues
  rw [hsA, hsV, hsF, hsVS, hsFS, hsRV]
  rfl

/-- Claim C6 (amended): for a chunk consisting of the plain one-level bulk
assignment `cell.values = [<content>]` with content drawn from digits, commas
and spaces, validation before correction reports exactly one fixable issue
(the `.values` 1D array-dimension issue for line 1), the corrector rewrites
the assignment to the two-level `cell.values = [[<content>]]`, and
re-validation of the corrected chunk reports zero fixable issues.  (The
original claim fails for `getRange`-qualified assignments, which draw a
second fixable issue from `validateRangeOperations`; see the
counterexample.) -/
theorem C6_one_level_per_assignment (content : Chars)
    (hcs : ∀ c ∈ content, c.isDigit = true ∨ c = ',' ∨ c = ' ') :
    (validateGeneratedCode (c6Code content)).fixableIssues = [VIssue.values1D 1]
    ∧ autoCorrectArrayDimensions (c6Code content) = c6Fixed content
    ∧ (validateGeneratedCode (autoCorrectArrayDimensions (c6Code content))).fixableIssues
      = [] := by
  have h2 := c6_autoCorrect content hcs
  refine ⟨c6_code_one_issue content hcs, h2, ?_⟩
  rw [h2]
  exact c6_fixed_valid content hcs

/-- Concrete instance of the C6 family: `cell.values = [1, 2]`. -/
theorem C6_one_level_per_assignment_witness :
    (∀ c ∈ ("1, 2".toList : Chars), c.isDigit = true ∨ c = ',' ∨ c = ' ')
    ∧ ((validateGeneratedCode (c6Code "1, 2".toList)).fixableIssues = [VIssue.values1D 1]
      ∧ autoCorrectArrayDimensions (c6Code "1, 2".toList) = c6Fixed "1, 2".toList
      ∧ (validateGeneratedCode
          (autoCorrectArrayDimensions (c6Code "1, 2".toList))).fixableIssues = []) :=
  ⟨by decide, C6_one_level_per_assignment "1, 2".toList (by decide)⟩

def rangedOneLevelChunk : Chars :=
  "sheet.getRange(\"A1:B1\").values = [1, 2]".toList

/-- Claim C6 counterexample: the single one-level `.values` assignment of
`sheet.getRange("A1:B1").values = [1, 2]` yields two fixable issues before
correction (the array-dimension 1D issue and the range-dimension issue of
`validateRangeOperations`), not exactly one. -/
theorem C6_counterexample :
    (validateGeneratedCode rangedOneLevelChunk).fixableIssues
      = [VIssue.values1D 1, VIssue.range1D "A1:B1".toList 1 2] := by decide

end Spreadly
